import Mathlib

/-!
# Verification of the MomentLoop background-job orchestration core

Shallow embedding, in Lean 4, of the parts of the MomentLoop backend that the
frozen claims are about:

* the process-wide concurrency limiter (`app/core/concurrency.py` together
  with the `Settings` class of `app/core/config.py`);
* the local storage backend's path handling
  (`app/services/storage.py`, class `LocalStorageBackend`);
* the relational state mutated by the style-transfer, video and export route
  handlers (`app/api/routes/styles.py`, `videos.py`, `export.py`), modelled as
  records and pure state-transforming functions;
* the export pipeline `process_export` (`app/api/routes/export.py`), modelled
  as a function producing the final export record, the list of committed
  snapshots of that record, the transition `Video` rows it creates and the
  list of external collaborator calls it performs;
* the startup crash-recovery sweep `resume_stuck_style_transfers`
  (`app/core/stuck_jobs.py`).

Machine integers do not occur on any path relevant to the claims, so ids,
positions and percentages are modelled as `Nat`.  Status and path fields are
the `String`s the source uses.  Fallible operations return `Except`.
-/

namespace MomentLoop

/-! ## Configuration and the concurrency limiter (`config.py`, `concurrency.py`)

`Settings` (a pydantic model, `extra="ignore"`) exposes exactly the fields it
declares; reading any other attribute raises `AttributeError`.  The integer
fields declared in the "Concurrency limits" / "File retention" block of
`app/core/config.py` are listed below with their defaults.  Attribute access
is modelled as a lookup returning `Option Nat`. -/

/-- The integer settings fields declared in `app/core/config.py` (class
`Settings`), with their default values.  Note there is no
`max_concurrent_prompt_generations` field. -/
def settingsIntFields : List (String × Nat) :=
  [("max_concurrent_style_transfers", 3),
   ("max_concurrent_video_generations", 5),
   ("max_concurrent_exports", 2),
   ("export_retention_days", 7),
   ("jwt_expiration_hours", 24)]

/-- Attribute access on the `Settings` object: `some v` when the field is
declared, `none` when the access would raise `AttributeError`. -/
def settingsAttr (field : String) : Option Nat :=
  (settingsIntFields.find? (fun p => p.1 == field)).map Prod.snd

/-- The four admission gates held by `SemaphoreManager`, identified by the
capacity each `asyncio.Semaphore` is constructed with. -/
structure SemaphoreManager where
  style_transfer : Nat
  video_generation : Nat
  exports : Nat
  prompt_generation : Nat
  deriving Repr, DecidableEq

/-- `SemaphoreManager.__init__` (`app/core/concurrency.py`, lines 12-17):
reads the four capacities from the settings object in declaration order and
builds one semaphore from each.  A missing attribute raises, modelled as
`none`. -/
def semaphoreManagerInit : Option SemaphoreManager := do
  let st ← settingsAttr "max_concurrent_style_transfers"
  let vg ← settingsAttr "max_concurrent_video_generations"
  let ex ← settingsAttr "max_concurrent_exports"
  let pg ← settingsAttr "max_concurrent_prompt_generations"
  pure ⟨st, vg, ex, pg⟩

/-! ## Local storage path handling (`storage.py`, `LocalStorageBackend`)

Filesystem paths are modelled at the character level: a path string is a
`List Char`, a parsed path is a `List (List Char)` of components.  This mirrors
`pathlib` exactly on symlink-free trees: `Path.__truediv__` discards the left
operand when the right operand is absolute, parsing drops empty and `"."`
components, and `resolve()` eliminates `".."` lexically (at the root, `".."`
is a no-op). -/

/-- Split a character list on the slash separator, mirroring how `pathlib`
splits a path string into raw components. -/
def splitSlash : List Char → List (List Char)
  | [] => [[]]
  | c :: rest =>
    if c = '/' then [] :: splitSlash rest
    else
      match splitSlash rest with
      | [] => [[c]]
      | g :: gs => (c :: g) :: gs

/-- Component of a `pathlib` dot component. -/
def dotComp : List Char := ['.']

/-- Parse the path string into `pathlib` components: empty and `"."` pieces
are dropped, `".."` is kept (it is only eliminated by `resolve()`). -/
def parseComponents (s : List Char) : List (List Char) :=
  (splitSlash s).filter (fun c => decide (c ≠ []) && decide (c ≠ dotComp))

/-- A path string is absolute when it starts with a slash. -/
def isAbsPath (s : List Char) : Bool :=
  match s with
  | [] => false
  | c :: _ => c = '/'

/-- Component of a `pathlib` parent (`".."`) component. -/
def dotDotComp : List Char := ['.', '.']

/-- Lexical `Path.resolve()` on components: `".."` removes the last
accumulated component (a no-op at the root), everything else is kept. -/
def resolveComponents (cs : List (List Char)) : List (List Char) :=
  cs.foldl (fun acc c => if c = dotDotComp then acc.dropLast else acc ++ [c]) []

/-- Render an absolute path from its components, as `str(Path(...))` does:
the root is `"/"`, otherwise each component is preceded by one slash. -/
def joinSlash : List (List Char) → List Char
  | [] => []
  | c :: cs => '/' :: (c ++ joinSlash cs)

/-- `str()` of an absolute path. -/
def renderAbs (cs : List (List Char)) : List Char :=
  match cs with
  | [] => ['/']
  | _ => joinSlash cs

/-- `self.base_path / relative_path` (`pathlib` join): the base is discarded
when the relative part is an absolute path. -/
def joinedComponents (base : List (List Char)) (rel : List Char) :
    List (List Char) :=
  if isAbsPath rel then parseComponents rel else base ++ parseComponents rel

/-- `LocalStorageBackend.get_full_path` (`storage.py`, lines 141-146):
`full_path = (self.base_path / relative_path).resolve()`, then the guard
`str(full_path).startswith(str(base_resolved) + "/") or full_path ==
base_resolved`; on failure it raises
`ValueError("Invalid path: path traversal detected")`.  `base` is the
backend's base path, given already resolved (both `resolve()` calls run from
the same working directory).  `read_file` and `delete_file` (lines 151-156,
170-173) touch exactly the path this function returns. -/
def getFullPath (base : List (List Char)) (rel : List Char) :
    Except String (List (List Char)) :=
  if (renderAbs (resolveComponents base) ++ ['/']).isPrefixOf
       (renderAbs (resolveComponents (joinedComponents base rel)))
      || resolveComponents (joinedComponents base rel) == resolveComponents base
  then
    .ok (resolveComponents (joinedComponents base rel))
  else
    .error "Invalid path: path traversal detected"

/-- A clean path component: what `resolve()` leaves behind — nonempty, no
slash, not `"."`, not `".."`.  The components of a resolved base directory
path satisfy this. -/
def CleanComp (c : List Char) : Prop :=
  c ≠ [] ∧ '/' ∉ c ∧ c ≠ dotComp ∧ c ≠ dotDotComp

instance (c : List Char) : Decidable (CleanComp c) := by
  unfold CleanComp; infer_instance

theorem splitSlash_no_slash (s : List Char) : ∀ g ∈ splitSlash s, '/' ∉ g := by
  induction s with
  | nil => simp [splitSlash]
  | cons c rest ih =>
    simp only [splitSlash]
    split
    · next hc =>
      intro g hg
      rcases List.mem_cons.mp hg with h | h
      · simp [h]
      · exact ih g h
    · next hc =>
      cases hrest : splitSlash rest with
      | nil =>
        intro g hg
        rcases List.mem_singleton.mp hg with rfl
        intro hmem
        rcases List.mem_singleton.mp hmem with h
        exact hc h.symm
      | cons g gs =>
        intro x hx
        rcases List.mem_cons.mp hx with h | h
        · subst h
          intro hmem
          rcases List.mem_cons.mp hmem with h | h
          · exact hc h.symm
          · exact ih g (by simp [hrest]) h
        · exact ih x (by simp [hrest, h])

theorem parseComponents_clean (s : List Char) :
    ∀ c ∈ parseComponents s, c ≠ [] ∧ '/' ∉ c ∧ c ≠ dotComp := by
  intro c hc
  unfold parseComponents at hc
  rcases List.mem_filter.mp hc with ⟨hmem, hcond⟩
  simp only [Bool.and_eq_true, decide_eq_true_eq] at hcond
  exact ⟨hcond.1, splitSlash_no_slash s c hmem, hcond.2⟩

theorem resolveComponents_foldl_clean (cs : List (List Char))
    (hcs : ∀ c ∈ cs, c ≠ [] ∧ '/' ∉ c ∧ c ≠ dotComp) :
    ∀ acc, (∀ c ∈ acc, CleanComp c) →
      ∀ c ∈ cs.foldl
        (fun acc c => if c = dotDotComp then acc.dropLast else acc ++ [c]) acc,
        CleanComp c := by
  induction cs with
  | nil => intro acc hacc; simpa using hacc
  | cons x xs ih =>
    intro acc hacc
    simp only [List.foldl_cons]
    by_cases hx : x = dotDotComp
    · simp only [hx, if_pos rfl]
      refine ih (fun c hc => hcs c (List.mem_cons_of_mem _ hc)) _ ?_
      intro c hc
      exact hacc c (List.dropLast_subset _ hc)
    · simp only [if_neg hx]
      refine ih (fun c hc => hcs c (List.mem_cons_of_mem _ hc)) _ ?_
      intro c hc
      rcases List.mem_append.mp hc with h | h
      · exact hacc c h
      · have hcx : c = x := List.mem_singleton.mp h
        rcases hcs x (List.mem_cons_self _ _) with ⟨h1, h2, h3⟩
        rw [hcx]
        exact ⟨h1, h2, h3, hx⟩

theorem resolveComponents_clean (cs : List (List Char))
    (hcs : ∀ c ∈ cs, c ≠ [] ∧ '/' ∉ c ∧ c ≠ dotComp) :
    ∀ c ∈ resolveComponents cs, CleanComp c :=
  resolveComponents_foldl_clean cs hcs [] (by simp)

theorem resolveComponents_foldl_eq (cs : List (List Char))
    (h : ∀ c ∈ cs, c ≠ dotDotComp) :
    ∀ acc, cs.foldl
      (fun acc c => if c = dotDotComp then acc.dropLast else acc ++ [c]) acc
      = acc ++ cs := by
  induction cs with
  | nil => simp
  | cons x xs ih =>
    intro acc
    have hx : x ≠ dotDotComp := h x (List.mem_cons_self _ _)
    simp only [List.foldl_cons, if_neg hx]
    rw [ih (fun c hc => h c (List.mem_cons_of_mem _ hc))]
    simp

theorem resolveComponents_eq_self (cs : List (List Char))
    (h : ∀ c ∈ cs, c ≠ dotDotComp) : resolveComponents cs = cs := by
  unfold resolveComponents
  rw [resolveComponents_foldl_eq cs h []]
  simp

theorem head_joinSlash_append_slash (l : List (List Char)) :
    (joinSlash l ++ ['/']).head? = some '/' := by
  cases l <;> simp [joinSlash]

theorem append_prefix_cancel :
    ∀ (x : List Char) (y a b : List Char), '/' ∉ x → '/' ∉ y →
      a.head? = some '/' → (b.head? = some '/' ∨ b = []) →
      (x ++ a) <+: (y ++ b) → x = y ∧ a <+: b := by
  intro x
  induction x with
  | nil =>
    intro y a b _ hy ha _ hpre
    cases y with
    | nil => exact ⟨rfl, by simpa using hpre⟩
    | cons d y2 =>
      exfalso
      cases a with
      | nil => simp at ha
      | cons c a2 =>
        have hc : c = '/' := by simpa using ha
        rcases hpre with ⟨t, ht⟩
        simp only [List.nil_append, List.cons_append] at ht
        injection ht with h1 h2
        refine hy ?_
        rw [show d = '/' from h1.symm.trans hc]
        exact List.mem_cons_self _ _
  | cons c x2 ih =>
    intro y a b hx hy ha hb hpre
    cases y with
    | nil =>
      exfalso
      rcases hb with hb | hb
      · cases b with
        | nil => simp at hb
        | cons d b2 =>
          have hd : d = '/' := by simpa using hb
          rcases hpre with ⟨t, ht⟩
          simp only [List.cons_append, List.nil_append] at ht
          injection ht with h1 h2
          refine hx ?_
          rw [show c = '/' from h1.trans hd]
          exact List.mem_cons_self _ _
      · subst hb
        rcases hpre with ⟨t, ht⟩
        simp at ht
    | cons d y2 =>
      rcases hpre with ⟨t, ht⟩
      simp only [List.cons_append] at ht
      injection ht with hcd htail
      have htail2 : (x2 ++ a) ++ t = y2 ++ b := by simpa [List.append_assoc] using htail
      have hrec := ih y2 a b (fun h => hx (List.mem_cons_of_mem _ h))
        (fun h => hy (List.mem_cons_of_mem _ h)) ha hb ⟨t, htail2⟩
      exact ⟨by rw [hcd, hrec.1], hrec.2⟩

theorem joinSlash_prefix :
    ∀ (xs ys : List (List Char)),
      (∀ c ∈ xs, CleanComp c) → (∀ c ∈ ys, CleanComp c) →
      (joinSlash xs ++ ['/']) <+: joinSlash ys → xs <+: ys := by
  intro xs
  induction xs with
  | nil => intro ys _ _ _; exact ys.nil_prefix
  | cons x xs2 ih =>
    intro ys hxs hys hpre
    cases ys with
    | nil =>
      exfalso
      have hlen := hpre.length_le
      simp [joinSlash] at hlen
    | cons y ys2 =>
      have hx := hxs x (List.mem_cons_self _ _)
      have hy := hys y (List.mem_cons_self _ _)
      simp only [joinSlash, List.cons_append] at hpre
      have hpre2 : (x ++ (joinSlash xs2 ++ ['/'])) <+: (y ++ joinSlash ys2) := by
        rcases hpre with ⟨t, ht⟩
        simp only [List.cons_append, List.cons.injEq] at ht
        refine ⟨t, ?_⟩
        have := ht.2
        simpa [List.append_assoc] using this
      have hb : (joinSlash ys2).head? = some '/' ∨ joinSlash ys2 = [] := by
        cases ys2 <;> simp [joinSlash]
      have hcancel := append_prefix_cancel x y (joinSlash xs2 ++ ['/'])
        (joinSlash ys2) hx.2.1 hy.2.1 (head_joinSlash_append_slash xs2) hb hpre2
      have hxs2 : xs2 <+: ys2 :=
        ih ys2 (fun c hc => hxs c (List.mem_cons_of_mem _ hc))
          (fun c hc => hys c (List.mem_cons_of_mem _ hc)) hcancel.2
      rw [hcancel.1]
      rcases hxs2 with ⟨t, ht⟩
      exact ⟨t, by simp [ht]⟩

theorem renderAbs_prefix_to_prefix (xs ys : List (List Char))
    (hxs : ∀ c ∈ xs, CleanComp c) (hys : ∀ c ∈ ys, CleanComp c)
    (hpre : (renderAbs xs ++ ['/']).isPrefixOf (renderAbs ys) = true) :
    xs <+: ys := by
  cases xs with
  | nil => exact List.nil_prefix
  | cons x0 xr =>
    cases ys with
    | nil =>
      exfalso
      have hpre2 := List.isPrefixOf_iff_prefix.mp hpre
      have hlen := hpre2.length_le
      have hx0 : x0 ≠ [] := (hxs x0 (List.mem_cons_self _ _)).1
      have hx0len : 0 < x0.length := List.length_pos.mpr hx0
      simp only [renderAbs, joinSlash, List.length_append, List.length_cons,
        List.length_singleton] at hlen
      omega
    | cons y0 yr =>
      have hpre2 := List.isPrefixOf_iff_prefix.mp hpre
      simp only [renderAbs] at hpre2
      exact joinSlash_prefix (x0 :: xr) (y0 :: yr) hxs hys hpre2

/-- C10: for every relative path string, `LocalStorageBackend.get_full_path`
either raises `ValueError` or returns a path lying under the storage base
directory: the returned component list extends the (resolved, clean) base
components, and contains no residual `".."` components — so `read_file` and
`delete_file`, which operate on this function's result, cannot be driven
outside the base directory by `".."` path components. -/
theorem getFullPath_within_base (base : List (List Char)) (rel : List Char)
    (hbase : ∀ c ∈ base, CleanComp c) (p : List (List Char))
    (h : getFullPath base rel = Except.ok p) :
    base <+: p ∧ ∀ c ∈ p, CleanComp c := by
  have hbres : resolveComponents base = base :=
    resolveComponents_eq_self base (fun c hc => (hbase c hc).2.2.2)
  have hjc : ∀ c ∈ joinedComponents base rel, c ≠ [] ∧ '/' ∉ c ∧ c ≠ dotComp := by
    intro c hc
    unfold joinedComponents at hc
    by_cases habs : isAbsPath rel
    · rw [if_pos habs] at hc
      exact parseComponents_clean rel c hc
    · rw [if_neg habs] at hc
      rcases List.mem_append.mp hc with h1 | h1
      · rcases hbase c h1 with ⟨a, b, c2, _⟩
        exact ⟨a, b, c2⟩
      · exact parseComponents_clean rel c h1
  have hclean : ∀ c ∈ resolveComponents (joinedComponents base rel), CleanComp c :=
    resolveComponents_clean _ hjc
  unfold getFullPath at h
  split at h
  · next hguard =>
    have hp : p = resolveComponents (joinedComponents base rel) := by
      cases h
      rfl
    subst hp
    refine ⟨?_, hclean⟩
    rw [hbres] at hguard
    rcases Bool.or_eq_true _ _ |>.mp hguard with hpre | heq
    · exact renderAbs_prefix_to_prefix base _ hbase hclean hpre
    · have : resolveComponents (joinedComponents base rel) = base := by
        simpa using heq
      rw [this]
  · exact absurd h (by simp)

/-- Concrete storage base `/app/storage` for the C10 witness. -/
def demoBase : List (List Char) :=
  [['a', 'p', 'p'], ['s', 't', 'o', 'r', 'a', 'g', 'e']]

/-- Concrete relative path `uploads/7/../7/pic.png` for the C10 witness: it
contains a `".."` that stays inside the base. -/
def demoRel : List Char := ('u' :: 'p' :: 'l' :: 'o' :: 'a' :: 'd' :: 's' :: '/' ::
  '7' :: '/' :: '.' :: '.' :: '/' :: '7' :: '/' :: 'p' :: 'i' :: 'c' :: '.' ::
  'p' :: 'n' :: 'g' :: [])

/-- The path `get_full_path` returns on the C10 witness input. -/
def demoFull : List (List Char) :=
  [['a', 'p', 'p'], ['s', 't', 'o', 'r', 'a', 'g', 'e'],
   ['u', 'p', 'l', 'o', 'a', 'd', 's'], ['7'],
   ['p', 'i', 'c', '.', 'p', 'n', 'g']]

/-- Witness for C10 at a concrete input: the hypotheses hold and the returned
path extends the base. -/
theorem getFullPath_within_base_witness :
    getFullPath demoBase demoRel = Except.ok demoFull ∧ demoBase <+: demoFull :=
  ⟨rfl,
   (getFullPath_within_base demoBase demoRel (by decide) demoFull rfl).1⟩

/-- C2: constructing the concurrency limiter does not succeed.
`SemaphoreManager.__init__` (`concurrency.py`, lines 12-17) reads four
capacities from `Settings`, but `app/core/config.py` declares only three
concurrency fields; reading `max_concurrent_prompt_generations` raises
`AttributeError`, so process start fails instead of yielding four gates.  The
three declared capacities would be read successfully with their configured
values 3, 5 and 2. -/
theorem semaphoreManagerInit_fails :
    semaphoreManagerInit = none
      ∧ settingsAttr "max_concurrent_prompt_generations" = none
      ∧ settingsAttr "max_concurrent_style_transfers" = some 3
      ∧ settingsAttr "max_concurrent_video_generations" = some 5
      ∧ settingsAttr "max_concurrent_exports" = some 2 := by
  decide

/-! ## The relational data model (`app/models/*.py` plus migrations 006-009)

UUIDs are modelled as `Nat` tags; `created_at` timestamps, float durations and
free-text prompt bodies are dropped where no claim depends on them.  Nullable
columns are `Option`.  The `is_selected` (videos, migration 006), and
`thumbnail_path`/`progress_*`/`error_message`/`is_main` (exports, migrations
008-009) columns are taken from the migration files and the route code that
reads and writes them. -/

structure Project where
  id : Nat
  userId : Nat
  style : Option String
  stylePrompt : Option String
  status : String
  deriving Repr, DecidableEq

structure Photo where
  id : Nat
  projectId : Nat
  originalPath : String
  styledPath : Option String
  position : Nat
  status : String
  deriving Repr, DecidableEq

structure StyledVariant where
  id : Nat
  photoId : Nat
  styledPath : String
  style : String
  isSelected : Bool
  deriving Repr, DecidableEq

structure Video where
  id : Nat
  photoId : Option Nat
  projectId : Nat
  videoPath : Option String
  videoType : String
  sourcePhotoId : Option Nat
  targetPhotoId : Option Nat
  position : Option Nat
  status : String
  isSelected : Bool
  deriving Repr, DecidableEq

instance : Inhabited Video :=
  ⟨{ id := 0, photoId := none, projectId := 0, videoPath := none,
     videoType := "scene", sourcePhotoId := none, targetPhotoId := none,
     position := none, status := "pending", isSelected := false }⟩

structure Export where
  id : Nat
  projectId : Nat
  filePath : Option String
  thumbnailPath : Option String
  status : String
  progressStep : Option String
  progressDetail : Option String
  progressPercent : Nat
  errorMessage : Option String
  isMain : Bool
  deriving Repr, DecidableEq

/-- The persistent store, as the route handlers see it through a session.
`nextVariantId` / `nextVideoId` model the id generator for freshly inserted
rows (`uuid4` in the source): inserted rows receive the current counter. -/
structure DB where
  projects : List Project
  photos : List Photo
  variants : List StyledVariant
  videos : List Video
  exports : List Export
  nextVariantId : Nat
  nextVideoId : Nat
  deriving Repr, DecidableEq

/-! ## The export pipeline (`app/api/routes/export.py`, `process_export`)

The pipeline is modelled as a pure function from the export row, the project
contents and an environment of collaborator outcomes to a final state
carrying: the export row, the list of committed snapshots of that row (one
per `db.commit()`), the transition `Video` rows created, and the external
collaborator calls made, in order.  Collaborator results are oracles in
`ExportEnv`; storage paths are the relative path strings the source stores,
and a generated transition's path is tagged with the boundary index it was
generated for (the pair of scenes whose frames were its anchors). -/

/-- One call to an external collaborator (`ffmpeg_service` /
`fal_ai_service`). -/
inductive ExtCall where
  | extractFrame (boundary : Nat) (position : String)
  | generateTransition (boundary : Nat)
  | concatenateVideos (inputs : List String)
  | extractThumbFrame
  deriving Repr, DecidableEq

/-- Outcomes of the fallible collaborator calls `process_export` makes.
`concatErr` is the exception text when concatenation fails. -/
structure ExportEnv where
  includeTransitions : Bool
  extractLastOk : Nat → Bool
  extractFirstOk : Nat → Bool
  transitionOk : Nat → Bool
  concatOk : Bool
  concatErr : String
  thumbOk : Bool

/-- Running state of one `process_export` invocation. -/
structure ExpSt where
  exp : Export
  commits : List Export
  calls : List ExtCall
  transPaths : List String
  transVideos : List Video
  deriving Repr, DecidableEq

/-- `await db.commit()`: snapshot the export row. -/
def commitExport (s : ExpSt) : ExpSt :=
  { s with commits := s.commits ++ [s.exp] }

/-- `update_export_progress` (`export.py`, lines 43-54): set the three
progress fields and commit. -/
def updateExportProgress (s : ExpSt) (step detail : String) (percent : Nat) :
    ExpSt :=
  commitExport { s with exp := { s.exp with
    progressStep := some step
    progressDetail := some detail
    progressPercent := percent } }

/-- Position of the photo joined to a scene video — the `order_by` key of the
Phase-1 query (`Photo.position`, not `Video.position`). -/
def scenePhotoPosition (photos : List Photo) (v : Video) : Nat :=
  match v.photoId with
  | some pid => ((photos.find? (fun p => p.id == pid)).map Photo.position).getD 0
  | none => 0

/-- The Phase-1 `where` clause joined with `Photo` (`export.py`, lines
94-105): project, status `"ready"`, non-null path, type `"scene"`,
selected; the join keeps only videos whose `photo_id` matches a photo. -/
def sceneFilter (projectId : Nat) (photos : List Photo) (v : Video) : Bool :=
  (match v.photoId with
   | some pid => (photos.find? (fun p => p.id == pid)).isSome
   | none => false)
  && v.projectId == projectId && v.status == "ready" && v.videoPath.isSome
  && v.videoType == "scene" && v.isSelected

/-- Phase 1 of `process_export`: collect the selected ready scene videos,
ordered by the position of their photo. -/
def collectSceneVideos (projectId : Nat) (photos : List Photo)
    (videos : List Video) : List Video :=
  List.insertionSort
    (fun a b => scenePhotoPosition photos a ≤ scenePhotoPosition photos b)
    (videos.filter (sceneFilter projectId photos))

/-- Relative storage path of a collected scene video (`get_full_path` of its
stored path; paths are kept as the stored strings). -/
def scenePath (v : Video) : String := v.videoPath.getD ""

/-- Relative storage path under which the transition generated for boundary
`i` (between collected scenes `i` and `i+1`) is saved. -/
def transitionRelPath (i : Nat) : String := "transition_" ++ toString i

/-- The fixed transition prompt (`export.py`, lines 184-187). -/
def transitionPrompt : String :=
  "Smooth cinematic transition with gentle camera movement, seamless morph between scenes"

/-- List indexing used for `scene_video_data[i]` inside the loop (always in
bounds there since `i + 1 ≤ total < length`). -/
def vget (l : List Video) (i : Nat) : Video := (l.get? i).getD default

/-- One iteration of the transition loop (`export.py`, lines 144-231) for
boundary `i`: progress commit, extract the two anchor frames (an extraction
failure raises out of the loop), progress commit, then the guarded
`generate_transition`; on success save the clip, record its path and add the
transition `Video` row to the session; on failure continue without it. -/
def processTransition (projectId : Nat) (scenes : List Video) (total : Nat)
    (env : ExportEnv) (s : ExpSt) (i : Nat) : Except (ExpSt × String) ExpSt :=
  let va := vget scenes i
  let vb := vget scenes (i + 1)
  let s1 := updateExportProgress s "extracting_frames"
    ("Extracting frame " ++ toString (i + 1) ++ " of " ++ toString total)
    (10 + 10 * i / total)
  let s2 := { s1 with calls := s1.calls ++ [ExtCall.extractFrame i "last"] }
  if env.extractLastOk i = false then
    .error (s2, "extract_frame failed")
  else
    let s3 := { s2 with calls := s2.calls ++ [ExtCall.extractFrame i "first"] }
    if env.extractFirstOk i = false then
      .error (s3, "extract_frame failed")
    else
      let s4 := updateExportProgress s3 "generating_transitions"
        ("Transition " ++ toString (i + 1) ++ " of " ++ toString total)
        (20 + 60 * (i + 1) / total)
      let s5 := { s4 with calls := s4.calls ++ [ExtCall.generateTransition i] }
      if env.transitionOk i then
        let row : Video :=
          { id := 1000 + i
            projectId := projectId
            photoId := none
            videoType := "transition"
            videoPath := some (transitionRelPath i)
            sourcePhotoId := va.photoId
            targetPhotoId := vb.photoId
            position := va.position
            status := "ready"
            isSelected := false }
        .ok { s5 with
          transPaths := s5.transPaths ++ [transitionRelPath i]
          transVideos := s5.transVideos ++ [row] }
      else
        .ok s5

/-- The whole transition loop, `for i in range(total_transitions)`. -/
def runTransLoop (projectId : Nat) (scenes : List Video) (total : Nat)
    (env : ExportEnv) (s : ExpSt) : Except (ExpSt × String) ExpSt :=
  (List.range total).foldlM (processTransition projectId scenes total env) s

/-- Phase 4 interleaving (`export.py`, lines 238-242): append each scene
path, then `transition_paths[i]` whenever `i < len(transition_paths)`. -/
def interleavePaths : List String → List String → List String
  | [], _ => []
  | s :: ss, [] => s :: interleavePaths ss []
  | s :: ss, t :: ts => s :: t :: interleavePaths ss ts

/-- Deterministic per-export output path. -/
def exportRelPath (projectId exportId : Nat) : String :=
  "exports/" ++ toString projectId ++ "/export_" ++ toString exportId ++ ".mp4"

/-- Path the thumbnail is saved under. -/
def thumbnailRelPath (projectId exportId : Nat) : String :=
  "thumbnails/" ++ toString projectId ++ "/thumb_" ++ toString exportId ++ ".jpg"

/-- The outer `except` handler of `process_export` (lines 308-313): set
failed status and the exception text, reset percent, commit. -/
def exportFailState (s : ExpSt) (msg : String) : ExpSt :=
  commitExport { s with exp := { s.exp with
    status := "failed"
    errorMessage := some msg
    progressPercent := 0 } }

/-- Phases 4-5 and finalization of `process_export` (lines 235-313), entered
after the transition loop finished without raising: the post-loop commit,
the concatenate call, the best-effort thumbnail, and either the final
ready-with-path commit or the handler for a concatenation failure. -/
def exportFinishPhases (projectId exportId : Nat) (scenePaths : List String)
    (env : ExportEnv) (total : Nat) (s3 : ExpSt) : ExpSt :=
  let s3c := if total > 0 then commitExport s3 else s3
  let s4 := updateExportProgress s3c "concatenating" "Joining video clips..." 80
  let s5 := { s4 with calls := s4.calls ++
    [ExtCall.concatenateVideos (interleavePaths scenePaths s4.transPaths)] }
  if env.concatOk then
    let s6 := updateExportProgress s5 "concatenating"
      "Videos joined successfully" 90
    let s7 := updateExportProgress s6 "generating_thumbnail"
      "Creating preview image..." 95
    let s8 := { s7 with calls := s7.calls ++ [ExtCall.extractThumbFrame] }
    let s9 := if env.thumbOk then
        { s8 with exp := { s8.exp with
          thumbnailPath := some (thumbnailRelPath projectId exportId) } }
      else s8
    commitExport { s9 with exp := { s9.exp with
      filePath := some (exportRelPath projectId exportId)
      status := "ready"
      progressStep := none
      progressDetail := none
      progressPercent := 100 } }
  else
    exportFailState s5 env.concatErr

/-- `process_export` (`export.py`, lines 57-319), given the export row found
for `export_id`.  Produces the final state: export row, committed snapshots,
created transition rows and external calls. -/
def processExport (exp0 : Export) (projectId : Nat) (photos : List Photo)
    (videos : List Video) (env : ExportEnv) : ExpSt :=
  let s0 : ExpSt :=
    { exp := exp0
      commits := []
      calls := []
      transPaths := []
      transVideos := [] }
  let s1 := updateExportProgress
    { s0 with exp := { s0.exp with status := "processing" } }
    "collecting_videos" "Starting export..." 0
  let scenes := collectSceneVideos projectId photos videos
  if scenes.isEmpty then
    commitExport { s1 with exp := { s1.exp with
      status := "failed"
      errorMessage := some "No ready videos found" } }
  else
    let s2 := updateExportProgress s1 "collecting_videos"
      ("Found " ++ toString scenes.length ++ " videos") 10
    let total := if env.includeTransitions && scenes.length > 1
                 then scenes.length - 1 else 0
    match runTransLoop projectId scenes total env s2 with
    | .error (se, msg) => exportFailState se msg
    | .ok s3 =>
      exportFinishPhases projectId exp0.id (scenes.map scenePath) env total s3

/-- The inputs handed to the concatenation collaborator during a run, in
order (there is at most one such call). -/
def concatInputs (s : ExpSt) : List (List String) :=
  s.calls.filterMap (fun c => match c with
    | ExtCall.concatenateVideos l => some l
    | _ => none)

/-- Modelled from the spec and claim wording for C1 only (to be compared
with the concatenation input the code actually produces): the scenes in
photo-position order with the successful transition for the boundary between
scene `i` and scene `i+1` — `transAt i`, when present — placed exactly
between those two scenes: scene 0, transition 0-1 (if present), scene 1,
transition 1-2 (if present), and so on. -/
def claimedConcatInput (transAt : Nat → Option String) :
    Nat → List String → List String
  | _, [] => []
  | _, [s] => [s]
  | i, s :: rest =>
    s :: (match transAt i with
          | some t => t :: claimedConcatInput transAt (i + 1) rest
          | none => claimedConcatInput transAt (i + 1) rest)

/-- C1 fixture: three photos of project 1 at positions 0, 1, 2. -/
def c1Photos : List Photo :=
  [⟨1, 1, "orig1", some "st1", 0, "styled"⟩,
   ⟨2, 1, "orig2", some "st2", 1, "styled"⟩,
   ⟨3, 1, "orig3", some "st3", 2, "styled"⟩]

/-- C1 fixture: three selected ready scene videos, one per photo. -/
def c1Videos : List Video :=
  [⟨11, some 1, 1, some "s0", "scene", none, none, some 0, "ready", true⟩,
   ⟨12, some 2, 1, some "s1", "scene", none, none, some 1, "ready", true⟩,
   ⟨13, some 3, 1, some "s2", "scene", none, none, some 2, "ready", true⟩]

/-- C1 fixture: the freshly created export row. -/
def c1Export : Export :=
  ⟨100, 1, none, none, "pending", none, none, 0, none, false⟩

/-- C1 fixture: transitions enabled, frame extraction succeeds everywhere,
transition generation fails for boundary 0 and succeeds for boundary 1,
concatenation and thumbnail succeed. -/
def c1Env : ExportEnv :=
  { includeTransitions := true
    extractLastOk := fun _ => true
    extractFirstOk := fun _ => true
    transitionOk := fun i => i == 1
    concatOk := true
    concatErr := ""
    thumbOk := true }

/-- C1 fixture: the successful transitions per boundary in that run. -/
def c1TransAt : Nat → Option String :=
  fun i => if i == 1 then some (transitionRelPath i) else none

/-- C1 (evaluation of the code at the failing input): with three ordered
ready scenes where the transition attempt for boundary 0-1 fails and the one
for boundary 1-2 succeeds, the interleave loop indexes the dense list of
successful transition paths by scene position, so the concatenation input is
scene 0, transition 1-2, scene 1, scene 2 — the surviving transition is
placed at boundary 0-1 instead of boundary 1-2, differing from the placement
the claim states.  The created transition row records that it was generated
for the boundary between photo 2 and photo 3 (its source/target photo ids),
i.e. between scenes `s1` and `s2`. -/
theorem processExport_transition_misplaced :
    concatInputs (processExport c1Export 1 c1Photos c1Videos c1Env)
      = [["s0", "transition_1", "s1", "s2"]]
    ∧ claimedConcatInput c1TransAt 0 ["s0", "s1", "s2"]
      = ["s0", "s1", "transition_1", "s2"]
    ∧ concatInputs (processExport c1Export 1 c1Photos c1Videos c1Env)
      ≠ [claimedConcatInput c1TransAt 0 ["s0", "s1", "s2"]]
    ∧ (processExport c1Export 1 c1Photos c1Videos c1Env).transVideos.map
        (fun r => (r.videoPath, r.sourcePhotoId, r.targetPhotoId))
      = [(some "transition_1", some 2, some 3)] := by
  refine ⟨rfl, rfl, ?_, rfl⟩
  decide

/-- C4 fixture: a pending export row of project 2. -/
def c4Export : Export :=
  ⟨200, 2, none, none, "pending", none, none, 0, none, false⟩

/-- C4 fixture: project 2 has a photo but its only scene video is still
generating, so the Phase-1 query returns nothing. -/
def c4Videos : List Video :=
  [⟨21, some 5, 2, none, "scene", none, none, some 0, "generating", true⟩]

/-- C4 fixture: the photo of project 2. -/
def c4Photos : List Photo := [⟨5, 2, "orig5", none, 0, "uploaded"⟩]

/-- C4 fixture environment (irrelevant: no collaborator is reached). -/
def c4Env : ExportEnv :=
  { includeTransitions := true
    extractLastOk := fun _ => true
    extractFirstOk := fun _ => true
    transitionOk := fun _ => true
    concatOk := true
    concatErr := ""
    thumbOk := true }

/-- C4: when the Phase-1 query finds no ready, selected, non-null-path scene
video, `process_export` commits status `"failed"` with error message
`"No ready videos found"` and returns: no commit ever carries status
`"ready"`, and no external collaborator call (frame extraction, transition
generation, concatenation, thumbnail) is made. -/
theorem processExport_zero_ready_fails (exp0 : Export) (projectId : Nat)
    (photos : List Photo) (videos : List Video) (env : ExportEnv)
    (h : collectSceneVideos projectId photos videos = []) :
    (processExport exp0 projectId photos videos env).exp.status = "failed"
    ∧ (processExport exp0 projectId photos videos env).exp.errorMessage
        = some "No ready videos found"
    ∧ (∀ c ∈ (processExport exp0 projectId photos videos env).commits,
        c.status ≠ "ready")
    ∧ (processExport exp0 projectId photos videos env).calls = [] := by
  refine ⟨?_, ?_, ?_, ?_⟩
  · simp [processExport, h, updateExportProgress, commitExport]
  · simp [processExport, h, updateExportProgress, commitExport]
  · intro c hc
    simp [processExport, h, updateExportProgress, commitExport] at hc
    rcases hc with hc | hc <;> subst hc <;> simp
  · simp [processExport, h, updateExportProgress, commitExport]

/-- Witness for C4 at the concrete fixture. -/
theorem processExport_zero_ready_fails_witness :
    collectSceneVideos 2 c4Photos c4Videos = []
    ∧ (processExport c4Export 2 c4Photos c4Videos c4Env).exp.status = "failed"
    ∧ (processExport c4Export 2 c4Photos c4Videos c4Env).calls = [] :=
  ⟨rfl,
   (processExport_zero_ready_fails c4Export 2 c4Photos c4Videos c4Env rfl).1,
   (processExport_zero_ready_fails c4Export 2 c4Photos c4Videos c4Env rfl).2.2.2⟩

/-! ## Ready-implies-path bracketing (C9)

Invariant maintained while `process_export` is mid-flight, and the property
of its outputs. -/

/-- Mid-flight invariant: the in-memory export row still has status
`"processing"`, every committed snapshot satisfies ready-implies-path, and
every created transition row satisfies ready-implies-path. -/
def expStInv (s : ExpSt) : Prop :=
  s.exp.status = "processing"
  ∧ (∀ c ∈ s.commits, c.status = "ready" → c.filePath.isSome = true)
  ∧ (∀ r ∈ s.transVideos, r.status = "ready" → r.videoPath.isSome = true)

/-- Output property: all committed snapshots and all created transition rows
satisfy ready-implies-path. -/
def expOutOK (s : ExpSt) : Prop :=
  (∀ c ∈ s.commits, c.status = "ready" → c.filePath.isSome = true)
  ∧ (∀ r ∈ s.transVideos, r.status = "ready" → r.videoPath.isSome = true)

theorem expStInv_commit (s : ExpSt) (h : expStInv s) :
    expStInv (commitExport s) := by
  obtain ⟨h1, h2, h3⟩ := h
  refine ⟨h1, ?_, h3⟩
  intro c hc
  simp only [commitExport, List.mem_append, List.mem_singleton] at hc
  rcases hc with hc | hc
  · exact h2 c hc
  · subst hc
    intro hr
    exact absurd (h1.symm.trans hr) (by decide)

theorem expStInv_update (s : ExpSt) (a b : String) (n : Nat)
    (h : expStInv s) : expStInv (updateExportProgress s a b n) := by
  obtain ⟨h1, h2, h3⟩ := h
  refine ⟨h1, ?_, h3⟩
  intro c hc
  simp only [updateExportProgress, commitExport, List.mem_append,
    List.mem_singleton] at hc
  rcases hc with hc | hc
  · exact h2 c hc
  · subst hc
    intro hr
    exact absurd (h1.symm.trans hr) (by decide)

theorem expStInv_calls (s : ExpSt) (l : List ExtCall) (h : expStInv s) :
    expStInv { s with calls := l } := h

theorem expStInv_genRow (s : ExpSt) (l : List ExtCall) (p : String)
    (row : Video) (hrow : row.videoPath.isSome = true) (h : expStInv s) :
    expStInv { s with
      calls := l
      transPaths := s.transPaths ++ [p]
      transVideos := s.transVideos ++ [row] } := by
  obtain ⟨h1, h2, h3⟩ := h
  refine ⟨h1, h2, ?_⟩
  intro r hr
  simp only [List.mem_append, List.mem_singleton] at hr
  rcases hr with hr | hr
  · exact h3 r hr
  · subst hr
    intro _
    exact hrow

theorem expStInv_thumb (s : ExpSt) (t : String) (h : expStInv s) :
    expStInv { s with exp := { s.exp with thumbnailPath := some t } } := h

/-- Committing a terminal export row on top of a mid-flight state preserves
ready-implies-path, provided the new row itself satisfies it. -/
theorem expOutOK_commitWith (s : ExpSt) (e : Export)
    (he : e.status = "ready" → e.filePath.isSome = true) (h : expStInv s) :
    expOutOK (commitExport { s with exp := e }) := by
  obtain ⟨_, h2, h3⟩ := h
  refine ⟨?_, h3⟩
  intro c hc
  simp only [commitExport, List.mem_append, List.mem_singleton] at hc
  rcases hc with hc | hc
  · exact h2 c hc
  · subst hc
    exact he

theorem processTransition_inv (projectId : Nat) (scenes : List Video)
    (total : Nat) (env : ExportEnv) (s : ExpSt) (i : Nat) (h : expStInv s) :
    (∀ s2, processTransition projectId scenes total env s i = .ok s2 →
      expStInv s2)
    ∧ (∀ e, processTransition projectId scenes total env s i = .error e →
      expStInv e.1) := by
  constructor
  · intro s2 hx
    simp only [processTransition] at hx
    split at hx
    · exact Except.noConfusion hx
    · split at hx
      · exact Except.noConfusion hx
      · split at hx
        · cases hx
          refine expStInv_genRow _ _ _ _ rfl ?_
          exact expStInv_update _ _ _ _ (expStInv_calls _ _ (expStInv_calls _ _
            (expStInv_update _ _ _ _ h)))
        · cases hx
          exact expStInv_calls _ _ (expStInv_update _ _ _ _
            (expStInv_calls _ _ (expStInv_calls _ _
              (expStInv_update _ _ _ _ h))))
  · intro e hx
    simp only [processTransition] at hx
    split at hx
    · cases hx
      exact expStInv_calls _ _ (expStInv_update _ _ _ _ h)
    · split at hx
      · cases hx
        exact expStInv_calls _ _ (expStInv_calls _ _
          (expStInv_update _ _ _ _ h))
      · split at hx
        · exact Except.noConfusion hx
        · exact Except.noConfusion hx

theorem runTransLoopAux_inv (projectId : Nat) (scenes : List Video)
    (total : Nat) (env : ExportEnv) :
    ∀ (l : List Nat) (s : ExpSt), expStInv s →
      (∀ s2, l.foldlM (processTransition projectId scenes total env) s
        = .ok s2 → expStInv s2)
      ∧ (∀ e, l.foldlM (processTransition projectId scenes total env) s
        = .error e → expStInv e.1) := by
  intro l
  induction l with
  | nil =>
    intro s hs
    constructor
    · intro s2 hx
      have hx2 : (Except.ok s : Except (ExpSt × String) ExpSt)
          = Except.ok s2 := hx
      injection hx2 with h2
      rw [← h2]
      exact hs
    · intro e hx
      have hx2 : (Except.ok s : Except (ExpSt × String) ExpSt)
          = Except.error e := hx
      exact Except.noConfusion hx2
  | cons a l ih =>
    intro s hs
    have hstep := processTransition_inv projectId scenes total env s a hs
    cases hfa : processTransition projectId scenes total env s a with
    | ok sa =>
      have hrest := ih sa (hstep.1 sa hfa)
      constructor
      · intro s2 hx
        rw [List.foldlM_cons, hfa] at hx
        exact hrest.1 s2 hx
      · intro e hx
        rw [List.foldlM_cons, hfa] at hx
        exact hrest.2 e hx
    | error e2 =>
      constructor
      · intro s2 hx
        rw [List.foldlM_cons, hfa] at hx
        exact Except.noConfusion hx
      · intro e hx
        rw [List.foldlM_cons, hfa] at hx
        have hx2 : (Except.error e2 : Except (ExpSt × String) ExpSt)
            = Except.error e := hx
        injection hx2 with h2
        rw [← h2]
        exact hstep.2 e2 hfa

theorem runTransLoop_inv (projectId : Nat) (scenes : List Video) (total : Nat)
    (env : ExportEnv) (s : ExpSt) (h : expStInv s) :
    (∀ s2, runTransLoop projectId scenes total env s = .ok s2 → expStInv s2)
    ∧ (∀ e, runTransLoop projectId scenes total env s = .error e →
      expStInv e.1) :=
  runTransLoopAux_inv projectId scenes total env (List.range total) s h

theorem expOutOK_finishPhases (projectId exportId : Nat)
    (scenePaths : List String) (env : ExportEnv) (total : Nat) (s3 : ExpSt)
    (h : expStInv s3) :
    expOutOK (exportFinishPhases projectId exportId scenePaths env total s3) := by
  have h3c : expStInv (if total > 0 then commitExport s3 else s3) := by
    split
    · exact expStInv_commit s3 h
    · exact h
  simp only [exportFinishPhases, exportFailState]
  split
  · split
    · exact expOutOK_commitWith _ _ (fun _ => rfl)
        (expStInv_thumb _ _ (expStInv_calls _ _ (expStInv_update _ _ _ _
          (expStInv_update _ _ _ _ (expStInv_calls _ _
            (expStInv_update _ _ _ _ h3c))))))
    · exact expOutOK_commitWith _ _ (fun _ => rfl)
        (expStInv_calls _ _ (expStInv_update _ _ _ _
          (expStInv_update _ _ _ _ (expStInv_calls _ _
            (expStInv_update _ _ _ _ h3c)))))
  · exact expOutOK_commitWith _ _
      (fun hr => absurd (show ("failed" : String) = "ready" from hr) (by decide))
      (expStInv_calls _ _ (expStInv_update _ _ _ _ h3c))

/-- Every commit of `process_export` satisfies ready-implies-path, and every
transition row it creates does too: the status-to-ready write and the
file-path write happen in the same final commit. -/
theorem processExport_outOK (exp0 : Export) (projectId : Nat)
    (photos : List Photo) (videos : List Video) (env : ExportEnv) :
    expOutOK (processExport exp0 projectId photos videos env) := by
  have h1 : expStInv (updateExportProgress
      { exp := { exp0 with status := "processing" }, commits := [],
        calls := [], transPaths := [], transVideos := [] }
      "collecting_videos" "Starting export..." 0) := by
    refine expStInv_update _ _ _ _ ?_
    exact ⟨rfl, by simp, by simp⟩
  simp only [processExport]
  split
  · exact expOutOK_commitWith _ _
      (fun hr => absurd (show ("failed" : String) = "ready" from hr) (by decide)) h1
  · have h2 := expStInv_update _ "collecting_videos"
      ("Found " ++ toString (collectSceneVideos projectId photos videos).length
        ++ " videos") 10 h1
    split
    · next se msg heq =>
      simp only [exportFailState]
      exact expOutOK_commitWith _ _
        (fun hr => absurd (show ("failed" : String) = "ready" from hr) (by decide))
        ((runTransLoop_inv _ _ _ _ _ h2).2 (se, msg) heq)
    · next s3 heq =>
      exact expOutOK_finishPhases _ _ _ _ _ _
        ((runTransLoop_inv _ _ _ _ _ h2).1 s3 heq)

/-! ## Scene video generation (`app/api/routes/videos.py`) -/

/-- `update_video_status` (`videos.py`, lines 44-51): look the video up by id
and set its status (no-op when absent). -/
def updateVideoStatus (db : DB) (videoId : Nat) (status : String) : DB :=
  { db with videos := db.videos.map (fun v =>
      if v.id == videoId then { v with status := status } else v) }

/-- Result of one `process_video_generation` run: the final store state and
the store snapshot at each commit. -/
structure VideoGenRun where
  db : DB
  commits : List DB
  deriving Repr, DecidableEq

/-- `process_video_generation` (`videos.py`, lines 54-111): commit status
`"generating"`; then either (provider + save succeed, outcome
`genOk = some path`) deselect the photo's other scene videos and, in the same
transaction, write the video path, status `"ready"` and the selected flag on
the generated row; or (`genOk = none`) commit status `"failed"`. -/
def processVideoGeneration (db : DB) (videoId : Nat)
    (photoIdParam : Option Nat) (genOk : Option String) : VideoGenRun :=
  let db1 := updateVideoStatus db videoId "generating"
  match genOk with
  | some path =>
    let dbd : DB :=
      match photoIdParam with
      | some pid =>
        { db1 with videos := db1.videos.map (fun v =>
            if v.photoId == some pid && v.videoType == "scene"
            then { v with isSelected := false } else v) }
      | none => db1
    let db2 := { dbd with videos := dbd.videos.map (fun v =>
        if v.id == videoId
        then { v with videoPath := some path, status := "ready", isSelected := true }
        else v) }
    { db := db2, commits := [db1, db2] }
  | none =>
    let db2 := updateVideoStatus db1 videoId "failed"
    { db := db2, commits := [db1, db2] }

/-- Ready-implies-path over all video rows of a store state. -/
def videosReadyHavePath (db : DB) : Prop :=
  ∀ v ∈ db.videos, v.status = "ready" → v.videoPath.isSome = true

instance (db : DB) : Decidable (videosReadyHavePath db) := by
  unfold videosReadyHavePath; infer_instance

theorem readyPath_listMap (l : List Video) (f : Video → Video)
    (hf : ∀ v, (v.status = "ready" → v.videoPath.isSome = true) →
      ((f v).status = "ready" → (f v).videoPath.isSome = true))
    (hl : ∀ v ∈ l, v.status = "ready" → v.videoPath.isSome = true) :
    ∀ v ∈ l.map f, v.status = "ready" → v.videoPath.isSome = true := by
  intro v hv
  simp only [List.mem_map] at hv
  rcases hv with ⟨w, hw, hfw⟩
  rw [← hfw]
  exact hf w (hl w hw)

theorem videosReadyHavePath_mk (db : DB) (l : List Video)
    (hl : ∀ v ∈ l, v.status = "ready" → v.videoPath.isSome = true) :
    videosReadyHavePath { db with videos := l } :=
  fun v hv => hl v hv

theorem processVideoGeneration_commitsOK (db : DB) (videoId : Nat)
    (photoIdParam : Option Nat) (genOk : Option String)
    (h : videosReadyHavePath db) :
    ∀ d ∈ (processVideoGeneration db videoId photoIdParam genOk).commits,
      videosReadyHavePath d := by
  have hfgen : ∀ v : Video,
      (v.status = "ready" → v.videoPath.isSome = true) →
      (((if v.id == videoId then { v with status := "generating" } else v) :
          Video).status = "ready" →
        ((if v.id == videoId then { v with status := "generating" } else v) :
          Video).videoPath.isSome = true) := by
    intro v hv
    split_ifs with hcond
    · intro hr
      exact absurd (show ("generating" : String) = "ready" from hr) (by decide)
    · exact hv
  have hgenList : ∀ v ∈ db.videos.map
      (fun v => if v.id == videoId then { v with status := "generating" } else v),
      v.status = "ready" → v.videoPath.isSome = true :=
    readyPath_listMap db.videos _ hfgen h
  have hgen : videosReadyHavePath (updateVideoStatus db videoId "generating") :=
    videosReadyHavePath_mk db _ hgenList
  intro d hd
  cases genOk with
  | some path =>
    simp only [processVideoGeneration, List.mem_cons, List.not_mem_nil,
      or_false] at hd
    have hfready : ∀ v : Video,
        (v.status = "ready" → v.videoPath.isSome = true) →
        (((if v.id == videoId
            then { v with videoPath := some path, status := "ready", isSelected := true }
            else v) : Video).status = "ready" →
          ((if v.id == videoId
            then { v with videoPath := some path, status := "ready", isSelected := true }
            else v) : Video).videoPath.isSome = true) := by
      intro v hv
      split_ifs with hcond
      · intro _
        rfl
      · exact hv
    rcases hd with hd | hd
    · rw [hd]
      exact hgen
    · rw [hd]
      cases photoIdParam with
      | some pid =>
        refine videosReadyHavePath_mk _ _ ?_
        refine readyPath_listMap _ _ hfready ?_
        refine readyPath_listMap _ _ ?_ hgenList
        intro v hv
        split_ifs with hcond
        · exact hv
        · exact hv
      | none =>
        exact videosReadyHavePath_mk _ _ (readyPath_listMap _ _ hfready hgenList)
  | none =>
    simp only [processVideoGeneration, List.mem_cons, List.not_mem_nil,
      or_false] at hd
    have hffail : ∀ v : Video,
        (v.status = "ready" → v.videoPath.isSome = true) →
        (((if v.id == videoId then { v with status := "failed" } else v) :
            Video).status = "ready" →
          ((if v.id == videoId then { v with status := "failed" } else v) :
            Video).videoPath.isSome = true) := by
      intro v hv
      split_ifs with hcond
      · intro hr
        exact absurd (show ("failed" : String) = "ready" from hr) (by decide)
      · exact hv
    rcases hd with hd | hd
    · rw [hd]
      exact hgen
    · rw [hd]
      exact videosReadyHavePath_mk _ _ (readyPath_listMap _ _ hffail hgenList)

/-- C9: at every committed state, status `"ready"` implies the corresponding
artifact path is non-null.  For exports: every snapshot `process_export`
commits satisfies ready-implies-file-path — the status-to-ready write and the
file-path write happen in the same final commit — and every transition Video
row it creates is inserted with its path and `"ready"` status together.  For
videos: from any store satisfying ready-implies-video-path, both states
committed by `process_video_generation` satisfy it again (path, ready status
and selected flag are written in one transaction). -/
theorem ready_implies_artifact_path :
    (∀ (exp0 : Export) (projectId : Nat) (photos : List Photo)
      (videos : List Video) (env : ExportEnv),
      (∀ c ∈ (processExport exp0 projectId photos videos env).commits,
        c.status = "ready" → c.filePath.isSome = true)
      ∧ (∀ r ∈ (processExport exp0 projectId photos videos env).transVideos,
        r.status = "ready" → r.videoPath.isSome = true))
    ∧ (∀ (db : DB) (videoId : Nat) (photoIdParam : Option Nat)
        (genOk : Option String), videosReadyHavePath db →
        ∀ d ∈ (processVideoGeneration db videoId photoIdParam genOk).commits,
          videosReadyHavePath d) :=
  ⟨fun exp0 projectId photos videos env =>
    processExport_outOK exp0 projectId photos videos env,
   fun db videoId photoIdParam genOk h =>
    processVideoGeneration_commitsOK db videoId photoIdParam genOk h⟩

/-- C9 fixture: a store with one pending scene video for photo 2. -/
def c9DB : DB :=
  { projects := [⟨1, 1, some "ghibli", none, "draft"⟩]
    photos := [⟨2, 1, "orig", some "st", 0, "styled"⟩]
    variants := []
    videos := [⟨21, some 2, 1, none, "scene", none, none, some 0, "pending", false⟩]
    exports := []
    nextVariantId := 0
    nextVideoId := 22 }

/-- C9 fixture: a pending export row of project 3. -/
def c9Export : Export :=
  ⟨300, 3, none, none, "pending", none, none, 0, none, false⟩

/-- C9 fixture: the photo of project 3. -/
def c9Photos : List Photo := [⟨7, 3, "o", some "s", 0, "styled"⟩]

/-- C9 fixture: one selected ready scene video of project 3. -/
def c9Videos : List Video :=
  [⟨31, some 7, 3, some "sc0", "scene", none, none, some 0, "ready", true⟩]

/-- C9 fixture: all collaborators succeed. -/
def c9Env : ExportEnv :=
  { includeTransitions := true
    extractLastOk := fun _ => true
    extractFirstOk := fun _ => true
    transitionOk := fun _ => true
    concatOk := true
    concatErr := ""
    thumbOk := true }

/-- Witness for C9 at concrete inputs: the final committed states of a
successful video generation and of a successful export both satisfy
ready-implies-path. -/
theorem ready_implies_artifact_path_witness :
    videosReadyHavePath c9DB
    ∧ (processVideoGeneration c9DB 21 (some 2) (some "v.mp4")).db
        ∈ (processVideoGeneration c9DB 21 (some 2) (some "v.mp4")).commits
    ∧ videosReadyHavePath (processVideoGeneration c9DB 21 (some 2) (some "v.mp4")).db
    ∧ (processExport c9Export 3 c9Photos c9Videos c9Env).exp
        ∈ (processExport c9Export 3 c9Photos c9Videos c9Env).commits
    ∧ ((processExport c9Export 3 c9Photos c9Videos c9Env).exp.status = "ready"
        → (processExport c9Export 3 c9Photos c9Videos c9Env).exp.filePath.isSome = true) :=
  ⟨by decide, by decide,
   ready_implies_artifact_path.2 c9DB 21 (some 2) (some "v.mp4") (by decide)
     _ (by decide),
   by decide,
   (ready_implies_artifact_path.1 c9Export 3 c9Photos c9Videos c9Env).1
     _ (by decide)⟩

/-! ## Project style transfer (`app/api/routes/styles.py`)

The fan-out coordinator `process_project_style_transfer` and the pieces it is
built from.  The style-transfer provider and storage are abstracted by an
oracle `Nat → Option String`: for a photo id it yields `some styledPath` when
`process_single_photo_style` succeeds (that helper catches every provider
exception itself and returns a success flag, so the gathered results are
always plain triples) and `none` when the provider failed. -/

/-- The accepted styles (`styles.py`, line 24). -/
def VALID_STYLES : List String := ["ghibli", "lego", "minecraft", "simpsons"]

/-- `update_photo_status` (`styles.py`, lines 66-73): look the photo up by id
and set its status (no-op when absent). -/
def updatePhotoStatus (db : DB) (photoId : Nat) (status : String) : DB :=
  { db with photos := db.photos.map (fun p =>
      if p.id == photoId then { p with status := status } else p) }

/-- `save_photo_result` (`styles.py`, lines 76-107): when the photo exists,
optionally deselect all its variants and insert a new selected variant (with
a fresh id), then set the photo styled path and status `"styled"`; all in one
transaction. -/
def savePhotoResult (db : DB) (photoId : Nat) (styledPath : String)
    (style : String) (saveAsVariant : Bool) : DB :=
  if db.photos.any (fun p => p.id == photoId) then
    let db1 : DB :=
      if saveAsVariant then
        { db with
          variants := (db.variants.map (fun v =>
              if v.photoId == photoId then { v with isSelected := false } else v))
            ++ [⟨db.nextVariantId, photoId, styledPath, style, true⟩]
          nextVariantId := db.nextVariantId + 1 }
      else db
    { db1 with photos := db1.photos.map (fun p =>
        if p.id == photoId
        then { p with styledPath := some styledPath, status := "styled" }
        else p) }
  else db

/-- The mark-all-styling pass of the fan-out (`styles.py`, lines 166-172). -/
def markPhotosStyling (db : DB) (photoIds : List Nat) : DB :=
  photoIds.foldl (fun d pid => updatePhotoStatus d pid "styling") db

/-- Handling one gathered fan-out result (`styles.py`, lines 182-191):
success commits the styled path with a new selected variant, failure reverts
the photo to `"uploaded"`. -/
def styleResultStep (style : String) (oracle : Nat → Option String)
    (d : DB) (pd : Nat × String) : DB :=
  match oracle pd.1 with
  | some styledPath => savePhotoResult d pd.1 styledPath style true
  | none => updatePhotoStatus d pd.1 "uploaded"

/-- The sequential result loop of the fan-out. -/
def applyStyleResults (db : DB) (style : String)
    (photoData : List (Nat × String)) (oracle : Nat → Option String) : DB :=
  photoData.foldl (styleResultStep style oracle) db

/-- `update` of the parent project status. -/
def updateProjectStatus (db : DB) (projectId : Nat) (status : String) : DB :=
  { db with projects := db.projects.map (fun pr =>
      if pr.id == projectId then { pr with status := status } else pr) }

/-- `process_project_style_transfer` (`styles.py`, lines 144-201): query the
project photos ordered by position; an empty set returns immediately;
otherwise mark all photos `"styling"`, run the gathered per-photo provider
calls, commit each result, and finally set the project status `"draft"`.
`customPrompt` flows only into the provider call, which the oracle
abstracts. -/
def projectPhotoData (db : DB) (projectId : Nat) : List (Nat × String) :=
  (List.insertionSort (fun a b => a.position ≤ b.position)
      (db.photos.filter (fun p => p.projectId == projectId))).map
    (fun p => (p.id, p.originalPath))

def processProjectStyleTransfer (db : DB) (projectId : Nat) (style : String)
    (customPrompt : Option String) (oracle : Nat → Option String) : DB :=
  let photoData := projectPhotoData db projectId
  if photoData.isEmpty then db
  else
    let db1 := markPhotosStyling db (photoData.map Prod.fst)
    let db2 := applyStyleResults db1 style photoData oracle
    updateProjectStatus db2 projectId "draft"

/-- `stylize_project` (`styles.py`, lines 204-244): validate the style,
check ownership, set the project style and status `"processing"`, commit,
then launch the fan-out (modelled as running it to completion). -/
def stylizeProject (db : DB) (projectId userId : Nat) (style : String)
    (oracle : Nat → Option String) : Except String DB :=
  if !(VALID_STYLES.contains style) then .error "Invalid style"
  else
    match db.projects.find? (fun pr => pr.id == projectId && pr.userId == userId) with
    | none => .error "Project not found"
    | some pr =>
      let db1 := { db with projects := db.projects.map (fun q =>
          if q.id == projectId
          then { q with style := some style, status := "processing" }
          else q) }
      .ok (processProjectStyleTransfer db1 projectId style pr.stylePrompt oracle)

/-- The stuck-project auto-fix inside `get_project_style_status`
(`styles.py`, lines 333-336): when the project is `"processing"` but no photo
of the project is `"styling"`, reset the project to `"draft"`. -/
def styleStatusAutoFix (db : DB) (projectId : Nat) : DB :=
  match db.projects.find? (fun pr => pr.id == projectId) with
  | none => db
  | some pr =>
    if pr.status == "processing"
        && (db.photos.filter (fun p =>
              p.projectId == projectId && p.status == "styling")).length == 0
    then updateProjectStatus db projectId "draft"
    else db

/-- C3 counterexample fixture: a draft project with zero photos. -/
def c3DB : DB :=
  { projects := [⟨4, 9, none, none, "draft"⟩]
    photos := []
    variants := []
    videos := []
    exports := []
    nextVariantId := 0
    nextVideoId := 0 }

/-- C3 fixture: the same project right after `stylize_project` committed
status `"processing"` and launched the (empty) fan-out. -/
def c3DB2 : DB :=
  { projects := [⟨4, 9, some "ghibli", none, "processing"⟩]
    photos := []
    variants := []
    videos := []
    exports := []
    nextVariantId := 0
    nextVideoId := 0 }

/-- C3 counterexample: calling `stylize_project` on a project with zero
photos terminates with the project status still `"processing"`, not
`"draft"` — the empty fan-out returns before the project-status update at
the end of `process_project_style_transfer`. -/
theorem emptyFanout_leaves_processing :
    (stylizeProject c3DB 4 9 "ghibli" (fun _ => none)).map
      (fun d => d.projects.map Project.status) = .ok ["processing"]
    ∧ ("processing" : String) ≠ "draft" :=
  ⟨rfl, by decide⟩

/-- C3 amended: the empty fan-out is a no-op that leaves the whole store —
in particular the `"processing"` project status — untouched; the project is
only reset to `"draft"` when the style-status polling endpoint runs its
auto-fix on a `"processing"` project with zero `"styling"` photos. -/
theorem emptyFanout_noop_autofix_resets (db db2 : DB) (projectId : Nat)
    (style : String) (customPrompt : Option String)
    (oracle : Nat → Option String) (pr : Project)
    (hempty : db.photos.filter (fun p => p.projectId == projectId) = [])
    (hfind : db2.projects.find? (fun q => q.id == projectId) = some pr)
    (hstatus : pr.status = "processing")
    (hstyling : db2.photos.filter (fun p =>
      p.projectId == projectId && p.status == "styling") = []) :
    processProjectStyleTransfer db projectId style customPrompt oracle = db
    ∧ ∀ q ∈ (styleStatusAutoFix db2 projectId).projects,
        q.id = projectId → q.status = "draft" := by
  constructor
  · simp [processProjectStyleTransfer, projectPhotoData, hempty]
  · intro q hq hqid
    simp only [styleStatusAutoFix, hfind, hstyling, hstatus] at hq
    simp only [List.length_nil, updateProjectStatus] at hq
    rw [if_pos (by decide)] at hq
    simp only [List.mem_map] at hq
    rcases hq with ⟨q0, hq0, hfq⟩
    by_cases hid : q0.id == projectId
    · rw [← hfq, if_pos hid]
    · rw [← hfq, if_neg hid] at hqid ⊢
      exact absurd (by simpa using hqid) (by simpa using hid)

/-- Witness for the amended C3 at the concrete fixture. -/
theorem emptyFanout_noop_autofix_resets_witness :
    processProjectStyleTransfer c3DB2 4 "ghibli" none (fun _ => none) = c3DB2
    ∧ ∀ q ∈ (styleStatusAutoFix c3DB2 4).projects, q.id = 4 → q.status = "draft" :=
  ⟨(emptyFanout_noop_autofix_resets c3DB2 c3DB2 4 "ghibli" none (fun _ => none)
      ⟨4, 9, some "ghibli", none, "processing"⟩ rfl rfl rfl rfl).1,
   (emptyFanout_noop_autofix_resets c3DB2 c3DB2 4 "ghibli" none (fun _ => none)
      ⟨4, 9, some "ghibli", none, "processing"⟩ rfl rfl rfl rfl).2⟩

/-! ## C5: partial-failure aggregation in the fan-out -/

theorem mem_map_self {α : Type} (l : List α) (f : α → α) (x : α)
    (hx : x ∈ l) (hfx : f x = x) : x ∈ l.map f :=
  List.mem_map.mpr ⟨x, hx, hfx⟩

theorem stepOther_photo (style : String) (oracle : Nat → Option String)
    (d : DB) (q : Nat × String) (p : Photo)
    (hp : p ∈ d.photos) (hne : p.id ≠ q.1) :
    p ∈ (styleResultStep style oracle d q).photos := by
  have hbeq : (p.id == q.1) = false := by simpa using hne
  unfold styleResultStep
  cases oracle q.1 with
  | none => exact mem_map_self _ _ _ hp (by simp [hbeq])
  | some path =>
    simp only [savePhotoResult]
    split
    · refine mem_map_self _ _ _ ?_ (by simp [hbeq])
      simpa using hp
    · exact hp

theorem stepOther_variant (style : String) (oracle : Nat → Option String)
    (d : DB) (q : Nat × String) (v : StyledVariant)
    (hv : v ∈ d.variants) (hne : v.photoId ≠ q.1) :
    v ∈ (styleResultStep style oracle d q).variants := by
  have hbeq : (v.photoId == q.1) = false := by simpa using hne
  unfold styleResultStep
  cases oracle q.1 with
  | none => exact hv
  | some path =>
    simp only [savePhotoResult]
    split
    · refine List.mem_append.mpr (Or.inl ?_)
      exact mem_map_self _ _ _ hv (by simp [hbeq])
    · exact hv

theorem foldOther_photo (style : String) (oracle : Nat → Option String) :
    ∀ (L : List (Nat × String)) (d : DB) (p : Photo),
      p ∈ d.photos → p.id ∉ L.map Prod.fst →
      p ∈ (applyStyleResults d style L oracle).photos := by
  intro L
  induction L with
  | nil => intro d p hp _; exact hp
  | cons q L2 ih =>
    intro d p hp hnin
    have h1 : p.id ≠ q.1 := fun h => hnin (by simp [h])
    have h2 : p.id ∉ L2.map Prod.fst := fun h => hnin (by simp [h])
    exact ih _ p (stepOther_photo style oracle d q p hp h1) h2

theorem foldOther_variant (style : String) (oracle : Nat → Option String) :
    ∀ (L : List (Nat × String)) (d : DB) (v : StyledVariant),
      v ∈ d.variants → v.photoId ∉ L.map Prod.fst →
      v ∈ (applyStyleResults d style L oracle).variants := by
  intro L
  induction L with
  | nil => intro d v hv _; exact hv
  | cons q L2 ih =>
    intro d v hv hnin
    have h1 : v.photoId ≠ q.1 := fun h => hnin (by simp [h])
    have h2 : v.photoId ∉ L2.map Prod.fst := fun h => hnin (by simp [h])
    exact ih _ v (stepOther_variant style oracle d q v hv h1) h2

theorem step_nextVariantId_le (style : String) (oracle : Nat → Option String)
    (d : DB) (q : Nat × String) :
    d.nextVariantId ≤ (styleResultStep style oracle d q).nextVariantId := by
  unfold styleResultStep
  cases oracle q.1 with
  | none => exact Nat.le_refl _
  | some path =>
    simp only [savePhotoResult]
    split
    · exact Nat.le_succ _
    · exact Nat.le_refl _

theorem fold_nextVariantId_le (style : String) (oracle : Nat → Option String) :
    ∀ (L : List (Nat × String)) (d : DB),
      d.nextVariantId ≤ (applyStyleResults d style L oracle).nextVariantId := by
  intro L
  induction L with
  | nil => intro d; exact Nat.le_refl _
  | cons q L2 ih =>
    intro d
    exact Nat.le_trans (step_nextVariantId_le style oracle d q) (ih _)

theorem stepSelf_success (style : String) (oracle : Nat → Option String)
    (d : DB) (pid : Nat) (orig path : String)
    (hor : oracle pid = some path)
    (hex : ∃ q ∈ d.photos, q.id = pid) :
    (∃ p2 ∈ (styleResultStep style oracle d (pid, orig)).photos,
      p2.id = pid ∧ p2.status = "styled" ∧ p2.styledPath = some path)
    ∧ (∃ v ∈ (styleResultStep style oracle d (pid, orig)).variants,
      v.photoId = pid ∧ v.styledPath = path ∧ v.style = style
      ∧ v.isSelected = true ∧ v.id = d.nextVariantId) := by
  rcases hex with ⟨q, hq, hqid⟩
  have hbeq : (q.id == pid) = true := by simpa using hqid
  have hany : d.photos.any (fun p => p.id == pid) = true :=
    List.any_eq_true.mpr ⟨q, hq, hbeq⟩
  simp only [styleResultStep, hor]
  unfold savePhotoResult
  rw [if_pos hany]
  constructor
  · exact ⟨_, List.mem_map.mpr ⟨q, by simpa using hq, rfl⟩,
      by simp [hbeq, hqid], by simp [hbeq], by simp [hbeq]⟩
  · refine ⟨⟨d.nextVariantId, pid, path, style, true⟩, ?_, rfl, rfl, rfl, rfl, rfl⟩
    refine List.mem_append.mpr (Or.inr ?_)
    exact List.mem_singleton.mpr rfl

theorem stepSelf_failure (style : String) (oracle : Nat → Option String)
    (d : DB) (pid : Nat) (orig : String)
    (hor : oracle pid = none)
    (hex : ∃ q ∈ d.photos, q.id = pid) :
    ∃ p2 ∈ (styleResultStep style oracle d (pid, orig)).photos,
      p2.id = pid ∧ p2.status = "uploaded" := by
  rcases hex with ⟨q, hq, hqid⟩
  have hbeq : (q.id == pid) = true := by simpa using hqid
  simp only [styleResultStep, hor]
  exact ⟨_, List.mem_map.mpr ⟨q, hq, rfl⟩, by simp [hbeq, hqid], by simp [hbeq]⟩

theorem fold_success (style : String) (oracle : Nat → Option String) :
    ∀ (L : List (Nat × String)) (d : DB) (pid : Nat) (path : String),
      (L.map Prod.fst).Nodup →
      (∃ q ∈ d.photos, q.id = pid) →
      pid ∈ L.map Prod.fst →
      oracle pid = some path →
      (∃ p2 ∈ (applyStyleResults d style L oracle).photos,
        p2.id = pid ∧ p2.status = "styled" ∧ p2.styledPath = some path)
      ∧ (∃ v ∈ (applyStyleResults d style L oracle).variants,
        v.photoId = pid ∧ v.styledPath = path ∧ v.style = style
        ∧ v.isSelected = true ∧ d.nextVariantId ≤ v.id) := by
  intro L
  induction L with
  | nil =>
    intro d pid path _ _ hmem _
    simp at hmem
  | cons q L2 ih =>
    intro d pid path hnd hex hmem hor
    rw [List.map_cons] at hnd hmem
    have hnd2 : (L2.map Prod.fst).Nodup := (List.nodup_cons.mp hnd).2
    by_cases hq : pid = q.1
    · have hnotin : q.1 ∉ L2.map Prod.fst := (List.nodup_cons.mp hnd).1
      subst hq
      have hself := stepSelf_success style oracle d q.1 q.2 path hor hex
      rcases hself with ⟨⟨p2, hp2, hid2, hst2, hsp2⟩, ⟨v, hv, hv1, hv2, hv3, hv4, hv5⟩⟩
      constructor
      · refine ⟨p2, ?_, hid2, hst2, hsp2⟩
        exact foldOther_photo style oracle L2 _ p2 hp2 (by rw [hid2]; exact hnotin)
      · refine ⟨v, ?_, hv1, hv2, hv3, hv4, by rw [hv5]⟩
        exact foldOther_variant style oracle L2 _ v hv (by rw [hv1]; exact hnotin)
    · have hmem2 : pid ∈ L2.map Prod.fst := by
        rcases List.mem_cons.mp hmem with h | h
        · exact absurd h hq
        · exact h
      have hex2 : ∃ q2 ∈ (styleResultStep style oracle d q).photos, q2.id = pid := by
        rcases hex with ⟨q0, hq0, hq0id⟩
        exact ⟨q0, stepOther_photo style oracle d q q0 hq0
          (by rw [hq0id]; exact hq), hq0id⟩
      have hres := ih (styleResultStep style oracle d q) pid path hnd2 hex2 hmem2 hor
      refine ⟨hres.1, ?_⟩
      rcases hres.2 with ⟨v, hv, h1, h2, h3, h4, h5⟩
      exact ⟨v, hv, h1, h2, h3, h4,
        Nat.le_trans (step_nextVariantId_le style oracle d q) h5⟩

theorem fold_failure (style : String) (oracle : Nat → Option String) :
    ∀ (L : List (Nat × String)) (d : DB) (pid : Nat),
      (L.map Prod.fst).Nodup →
      (∃ q ∈ d.photos, q.id = pid) →
      pid ∈ L.map Prod.fst →
      oracle pid = none →
      ∃ p2 ∈ (applyStyleResults d style L oracle).photos,
        p2.id = pid ∧ p2.status = "uploaded" := by
  intro L
  induction L with
  | nil =>
    intro d pid _ _ hmem _
    simp at hmem
  | cons q L2 ih =>
    intro d pid hnd hex hmem hor
    rw [List.map_cons] at hnd hmem
    have hnd2 : (L2.map Prod.fst).Nodup := (List.nodup_cons.mp hnd).2
    by_cases hq : pid = q.1
    · have hnotin : q.1 ∉ L2.map Prod.fst := (List.nodup_cons.mp hnd).1
      subst hq
      rcases stepSelf_failure style oracle d q.1 q.2 hor hex with ⟨p2, hp2, hid2, hst2⟩
      refine ⟨p2, ?_, hid2, hst2⟩
      exact foldOther_photo style oracle L2 _ p2 hp2 (by rw [hid2]; exact hnotin)
    · have hmem2 : pid ∈ L2.map Prod.fst := by
        rcases List.mem_cons.mp hmem with h | h
        · exact absurd h hq
        · exact h
      have hex2 : ∃ q2 ∈ (styleResultStep style oracle d q).photos, q2.id = pid := by
        rcases hex with ⟨q0, hq0, hq0id⟩
        exact ⟨q0, stepOther_photo style oracle d q q0 hq0
          (by rw [hq0id]; exact hq), hq0id⟩
      exact ih (styleResultStep style oracle d q) pid hnd2 hex2 hmem2 hor

theorem updStatus_id (q : Photo) (pid : Nat) (s : String) :
    ((if q.id == pid then { q with status := s } else q) : Photo).id = q.id := by
  split <;> rfl

theorem markStyling_exists_id : ∀ (ids : List Nat) (db : DB) (pid : Nat),
    (∃ q ∈ db.photos, q.id = pid) →
    ∃ q ∈ (markPhotosStyling db ids).photos, q.id = pid := by
  intro ids
  induction ids with
  | nil => intro db pid h; exact h
  | cons i ids2 ih =>
    intro db pid h
    refine ih _ pid ?_
    rcases h with ⟨q, hq, hid⟩
    refine ⟨_, List.mem_map.mpr ⟨q, hq, rfl⟩, ?_⟩
    rw [updStatus_id]
    exact hid

theorem markStyling_nextVariantId : ∀ (ids : List Nat) (db : DB),
    (markPhotosStyling db ids).nextVariantId = db.nextVariantId := by
  intro ids
  induction ids with
  | nil => intro db; rfl
  | cons i ids2 ih => intro db; exact ih _

/-- C5: the fan-out coordinator is a total function (it never raises — every
provider exception is caught inside `process_single_photo_style` and turned
into a failure triple), and under it every photo of the project whose
provider call succeeded ends `"styled"` with the new styled path and a newly
inserted selected `StyledVariant` (its id is fresh: at least the store's
variant id watermark), while every photo whose provider call failed ends
with its status reverted to `"uploaded"`.  With photo ids unique (they are
primary keys), this pointwise characterization is exactly "the k failed
photos revert and the N−k successful photos succeed". -/
theorem fanout_partial_failure (db : DB) (projectId : Nat) (style : String)
    (customPrompt : Option String) (oracle : Nat → Option String)
    (hnd : (db.photos.map Photo.id).Nodup) :
    ∀ p ∈ db.photos, p.projectId = projectId →
      (∀ path, oracle p.id = some path →
        (∃ p2 ∈ (processProjectStyleTransfer db projectId style customPrompt oracle).photos,
          p2.id = p.id ∧ p2.status = "styled" ∧ p2.styledPath = some path)
        ∧ (∃ v ∈ (processProjectStyleTransfer db projectId style customPrompt oracle).variants,
          v.photoId = p.id ∧ v.styledPath = path ∧ v.style = style
          ∧ v.isSelected = true ∧ db.nextVariantId ≤ v.id))
      ∧ (oracle p.id = none →
        ∃ p2 ∈ (processProjectStyleTransfer db projectId style customPrompt oracle).photos,
          p2.id = p.id ∧ p2.status = "uploaded") := by
  intro p hp hproj
  have hpf : p ∈ db.photos.filter (fun p2 => p2.projectId == projectId) :=
    List.mem_filter.mpr ⟨hp, by simp [hproj]⟩
  have hsperm := List.perm_insertionSort
    (fun a b : Photo => a.position ≤ b.position)
    (db.photos.filter (fun p2 => p2.projectId == projectId))
  have hpmem : p ∈ List.insertionSort (fun a b : Photo => a.position ≤ b.position)
      (db.photos.filter (fun p2 => p2.projectId == projectId)) :=
    hsperm.symm.subset hpf
  have hidmem : p.id ∈ (projectPhotoData db projectId).map Prod.fst := by
    unfold projectPhotoData
    rw [List.map_map]
    exact List.mem_map.mpr ⟨p, hpmem, rfl⟩
  have hne2 : (projectPhotoData db projectId).isEmpty = false := by
    cases hpd : projectPhotoData db projectId with
    | nil =>
      rw [hpd] at hidmem
      simp at hidmem
    | cons a l => rfl
  have hfnd : ((db.photos.filter (fun p2 => p2.projectId == projectId)).map
      Photo.id).Nodup :=
    hnd.sublist ((List.filter_sublist _).map Photo.id)
  have hsnd : ((List.insertionSort (fun a b : Photo => a.position ≤ b.position)
      (db.photos.filter (fun p2 => p2.projectId == projectId))).map
      Photo.id).Nodup :=
    ((hsperm.map Photo.id).nodup_iff).mpr hfnd
  have hpdnd : ((projectPhotoData db projectId).map Prod.fst).Nodup := by
    unfold projectPhotoData
    rw [List.map_map]
    exact hsnd
  have hex : ∃ q ∈ (markPhotosStyling db
      ((projectPhotoData db projectId).map Prod.fst)).photos, q.id = p.id :=
    markStyling_exists_id _ db p.id ⟨p, hp, rfl⟩
  have heq : processProjectStyleTransfer db projectId style customPrompt oracle
      = updateProjectStatus (applyStyleResults
          (markPhotosStyling db ((projectPhotoData db projectId).map Prod.fst))
          style (projectPhotoData db projectId) oracle) projectId "draft" := by
    simp only [processProjectStyleTransfer, hne2]
    rw [if_neg (by decide)]
  constructor
  · intro path hor
    have hres := fold_success style oracle (projectPhotoData db projectId) _
      p.id path hpdnd hex hidmem hor
    rw [heq]
    constructor
    · rcases hres.1 with ⟨p2, hp2, hf⟩
      exact ⟨p2, hp2, hf⟩
    · rcases hres.2 with ⟨v, hv, h1, h2, h3, h4, h5⟩
      refine ⟨v, hv, h1, h2, h3, h4, ?_⟩
      rw [← markStyling_nextVariantId
        ((projectPhotoData db projectId).map Prod.fst) db]
      exact h5
  · intro hor
    have hres := fold_failure style oracle (projectPhotoData db projectId) _
      p.id hpdnd hex hidmem hor
    rw [heq]
    rcases hres with ⟨p2, hp2, hf⟩
    exact ⟨p2, hp2, hf⟩

/-- C5 fixture: project 1 with two photos; the provider succeeds for photo 1
and fails for photo 2. -/
def c5DB : DB :=
  { projects := [⟨1, 1, some "lego", none, "processing"⟩]
    photos := [⟨1, 1, "a.jpg", none, 0, "styling"⟩,
               ⟨2, 1, "b.jpg", none, 1, "styling"⟩]
    variants := []
    videos := []
    exports := []
    nextVariantId := 5
    nextVideoId := 0 }

/-- C5 fixture: the provider outcome per photo id. -/
def c5Oracle : Nat → Option String :=
  fun pid => if pid == 1 then some "a_styled.png" else none

/-- Witness for C5 at the concrete fixture: photo 1 ends styled with the new
path, photo 2 ends back at uploaded. -/
theorem fanout_partial_failure_witness :
    ((c5DB.photos.map Photo.id).Nodup
    ∧ ∃ p2 ∈ (processProjectStyleTransfer c5DB 1 "lego" none c5Oracle).photos,
        p2.id = 1 ∧ p2.status = "styled" ∧ p2.styledPath = some "a_styled.png")
    ∧ ∃ p3 ∈ (processProjectStyleTransfer c5DB 1 "lego" none c5Oracle).photos,
        p3.id = 2 ∧ p3.status = "uploaded" :=
  ⟨⟨by decide, ((fanout_partial_failure c5DB 1 "lego" none c5Oracle (by decide)
      ⟨1, 1, "a.jpg", none, 0, "styling"⟩ (by decide) rfl).1
        "a_styled.png" rfl).1⟩,
   (fanout_partial_failure c5DB 1 "lego" none c5Oracle (by decide)
      ⟨2, 1, "b.jpg", none, 1, "styling"⟩ (by decide) rfl).2 rfl⟩

/-! ## C7: set-main export (`export.py`, `set_main_export`) -/

/-- The ownership join of `set_main_export` (`export.py`, lines 658-663):
find the export with this id whose project belongs to the user. -/
def findOwnedExport (db : DB) (exportId userId : Nat) : Option Export :=
  db.exports.find? (fun e => e.id == exportId
    && db.projects.any (fun pr => pr.id == e.projectId && pr.userId == userId))

/-- The per-row write of `set_main_export` (lines 677-685): the chosen export
becomes main; any other export of the project that was main is cleared. -/
def setMainFn (exportId pid : Nat) (o : Export) : Export :=
  if o.id == exportId then { o with isMain := true }
  else if o.projectId == pid && o.isMain then { o with isMain := false }
  else o

/-- `set_main_export` (`export.py`, lines 650-689): 404 when not found; 400
— raised before any mutation — when the export is not `"ready"`; otherwise
clear `is_main` on the project's other exports and set it on this one, then
commit (one transaction). -/
def setMainExport (db : DB) (exportId userId : Nat) : Except String DB :=
  match findOwnedExport db exportId userId with
  | none => .error "Export not found"
  | some e =>
    if e.status != "ready" then .error "Only ready exports can be set as main"
    else .ok { db with exports := db.exports.map (setMainFn exportId e.projectId) }

/-- Number of main exports of a project. -/
def countMain (l : List Export) (pid : Nat) : Nat :=
  (l.filter (fun o => o.projectId == pid && o.isMain)).length

theorem setMainFn_not_target (exportId pid : Nat) (o : Export)
    (h : (o.id == exportId) = false) :
    ((setMainFn exportId pid o).projectId == pid
      && (setMainFn exportId pid o).isMain) = false := by
  unfold setMainFn
  rw [if_neg (by simp [h])]
  split
  · simp
  · next hc => simpa using hc

theorem countMain_map_zero (exportId pid : Nat) :
    ∀ (l : List Export), exportId ∉ l.map Export.id →
      countMain (l.map (setMainFn exportId pid)) pid = 0 := by
  intro l
  induction l with
  | nil => intro _; rfl
  | cons o l ih =>
    intro hnin
    have h1 : (o.id == exportId) = false := by
      simp only [List.map_cons, List.mem_cons] at hnin
      simpa using fun h => hnin (Or.inl h.symm)
    simp only [countMain, List.map_cons, List.filter_cons,
      setMainFn_not_target exportId pid o h1]
    rw [if_neg (by simp)]
    exact ih (fun h => hnin (by simp only [List.map_cons, List.mem_cons]; exact Or.inr h))

theorem countMain_after_set (exportId pid : Nat) :
    ∀ (l : List Export), (l.map Export.id).Nodup →
      (∃ e ∈ l, e.id = exportId ∧ e.projectId = pid) →
      countMain (l.map (setMainFn exportId pid)) pid = 1 := by
  intro l
  induction l with
  | nil =>
    intro _ hex
    rcases hex with ⟨e, he, _⟩
    cases he
  | cons o l ih =>
    intro hnd hex
    rw [List.map_cons] at hnd
    obtain ⟨hnin, hnd2⟩ := List.nodup_cons.mp hnd
    rcases hex with ⟨e, he, heid, hepid⟩
    rcases List.mem_cons.mp he with rfl | hmem
    · have hpred : ((setMainFn exportId pid e).projectId == pid
          && (setMainFn exportId pid e).isMain) = true := by
        unfold setMainFn
        rw [if_pos (by simp [heid])]
        simp [hepid]
      simp only [countMain, List.map_cons, List.filter_cons, hpred]
      rw [if_pos trivial, List.length_cons]
      have h0 : countMain (l.map (setMainFn exportId pid)) pid = 0 :=
        countMain_map_zero exportId pid l (by rw [← heid]; exact hnin)
      simp only [countMain] at h0
      rw [h0]
    · have h1 : (o.id == exportId) = false := by
        refine (Bool.eq_false_iff).mpr ?_
        intro hbeq
        refine hnin ?_
        have : o.id = exportId := by simpa using hbeq
        rw [this, ← heid]
        exact List.mem_map.mpr ⟨e, hmem, rfl⟩
      simp only [countMain, List.map_cons, List.filter_cons,
        setMainFn_not_target exportId pid o h1]
      rw [if_neg (by simp)]
      exact ih hnd2 ⟨e, hmem, heid, hepid⟩

/-- C7: a set-main call on an export that is not `"ready"` is rejected (the
HTTP 400 is raised before any write, so no state changes), and a successful
set-main call on a `"ready"` export produces a store in which exactly one
export of that project is main — all others were cleared in the same
transaction — with every other table untouched. -/
theorem setMainExport_spec (db : DB) (exportId userId : Nat) (e : Export)
    (hnd : (db.exports.map Export.id).Nodup)
    (hfind : findOwnedExport db exportId userId = some e) :
    (e.status ≠ "ready" →
      setMainExport db exportId userId
        = .error "Only ready exports can be set as main")
    ∧ (e.status = "ready" →
      ∃ db2, setMainExport db exportId userId = .ok db2
        ∧ countMain db2.exports e.projectId = 1
        ∧ db2.projects = db.projects ∧ db2.photos = db.photos
        ∧ db2.videos = db.videos ∧ db2.variants = db.variants) := by
  have hid : e.id = exportId := by
    have hp := List.find?_some hfind
    simp only [Bool.and_eq_true] at hp
    simpa using hp.1
  have hmem : e ∈ db.exports := List.mem_of_find?_eq_some hfind
  constructor
  · intro hne
    simp only [setMainExport, hfind]
    rw [if_pos (by simpa using hne)]
  · intro hry
    refine ⟨{ db with exports := db.exports.map (setMainFn exportId e.projectId) },
      ?_, ?_, rfl, rfl, rfl, rfl⟩
    · simp only [setMainExport, hfind]
      rw [if_neg (by simp [hry])]
    · exact countMain_after_set exportId e.projectId db.exports hnd
        ⟨e, hmem, hid, rfl⟩

/-- C7 fixture: project 10 with three exports — a ready non-main one, a
ready main one, and a processing one. -/
def c7DB : DB :=
  { projects := [⟨10, 77, none, none, "draft"⟩]
    photos := []
    variants := []
    videos := []
    exports := [⟨1, 10, some "f1", none, "ready", none, none, 100, none, false⟩,
                ⟨2, 10, some "f2", none, "ready", none, none, 100, none, true⟩,
                ⟨3, 10, none, none, "processing", none, none, 50, none, false⟩]
    nextVariantId := 0
    nextVideoId := 0 }

/-- Witness for C7 at the concrete fixture: setting export 1 main succeeds
and leaves exactly one main export in project 10; setting the processing
export 3 main is rejected. -/
theorem setMainExport_spec_witness :
    (∃ db2, setMainExport c7DB 1 77 = Except.ok db2
      ∧ countMain db2.exports 10 = 1)
    ∧ setMainExport c7DB 3 77
      = .error "Only ready exports can be set as main" :=
  ⟨match (setMainExport_spec c7DB 1 77
      ⟨1, 10, some "f1", none, "ready", none, none, 100, none, false⟩
      (by decide) rfl).2 rfl with
    | ⟨db2, h1, h2, _⟩ => ⟨db2, h1, h2⟩,
   (setMainExport_spec c7DB 3 77
      ⟨3, 10, none, none, "processing", none, none, 50, none, false⟩
      (by decide) rfl).1 (by decide)⟩

/-! ## C8: startup resume of stuck style transfers (`core/stuck_jobs.py`,
`resume_stuck_style_transfers`) -/

/-- A re-submitted style-transfer task: the photo id and the project's
current style and custom prompt passed to `process_style_transfer_for_photo`
(`stuck_jobs.py`, lines 123-130; `save_as_variant` is always `True`). -/
structure StyleTask where
  photoId : Nat
  style : String
  customPrompt : Option String
  deriving Repr, DecidableEq

/-- The `Photo`-`Project` join on `Photo.status == "styling"` of
`resume_stuck_style_transfers` (lines 94-100).  Each row also carries the
index of its photo in the photo table: distinct rows come from distinct ORM
photo objects, and mutating a row's photo touches exactly that object. -/
def stuckRows : Nat → List Photo → List Project → List (Nat × Photo × Project)
  | _, [], _ => []
  | n, p :: ps, projects =>
    (if p.status == "styling" then
      match projects.find? (fun pr => pr.id == p.projectId) with
      | some pr => [(n, p, pr)]
      | none => []
     else []) ++ stuckRows (n + 1) ps projects

/-- One iteration of the resume loop (lines 109-130): a row whose project
has no style resets the photo to `"uploaded"` and submits nothing; a row
with a style submits a resume task and leaves the photo untouched. -/
def stuckRowStep (acc : List Photo × List StyleTask)
    (row : Nat × Photo × Project) : List Photo × List StyleTask :=
  match row.2.2.style with
  | none => (acc.1.set row.1 { row.2.1 with status := "uploaded" }, acc.2)
  | some st => (acc.1, acc.2 ++ [⟨row.2.1.id, st, row.2.2.stylePrompt⟩])

/-- `resume_stuck_style_transfers` (`stuck_jobs.py`, lines 91-135): the new
photo table and the list of submitted resume tasks. -/
def resumeStuckStyleTransfers (photos : List Photo) (projects : List Project) :
    List Photo × List StyleTask :=
  (stuckRows 0 photos projects).foldl stuckRowStep (photos, [])

/-- Modelled from the claim wording for C8, for comparison with the code:
what happens to one photo — a `"styling"` photo whose project has no
configured style is reset to `"uploaded"`; any other photo is untouched. -/
def claimedResumeStep (projects : List Project) (p : Photo) : Photo :=
  if p.status == "styling" then
    match projects.find? (fun pr => pr.id == p.projectId) with
    | some pr =>
      match pr.style with
      | none => { p with status := "uploaded" }
      | some _ => p
    | none => p
  else p

/-- Modelled from the claim wording for C8: the tasks that must be
submitted — one per `"styling"` photo whose project has a configured style,
carrying the project's current style and custom prompt. -/
def claimedResumeTasks (projects : List Project) (photos : List Photo) :
    List StyleTask :=
  photos.filterMap (fun p =>
    if p.status == "styling" then
      match projects.find? (fun pr => pr.id == p.projectId) with
      | some pr => pr.style.map (fun st => ⟨p.id, st, pr.stylePrompt⟩)
      | none => none
    else none)

theorem set_append_cons (x : Photo) :
    ∀ (pre : List Photo) (p : Photo) (ps : List Photo),
      (pre ++ p :: ps).set pre.length x = pre ++ x :: ps := by
  intro pre
  induction pre with
  | nil => intro p ps; rfl
  | cons a pre ih =>
    intro p ps
    simp only [List.cons_append, List.length_cons, List.set_cons_succ]
    rw [ih]

theorem stuckRows_fold_eq (projects : List Project) :
    ∀ (ps : List Photo) (pre : List Photo) (acc : List StyleTask),
      (stuckRows pre.length ps projects).foldl stuckRowStep (pre ++ ps, acc)
      = (pre ++ ps.map (claimedResumeStep projects),
         acc ++ claimedResumeTasks projects ps) := by
  intro ps
  induction ps with
  | nil =>
    intro pre acc
    simp [stuckRows, claimedResumeTasks]
  | cons p ps ih =>
    intro pre acc
    simp only [stuckRows, List.map_cons, claimedResumeTasks, List.filterMap_cons]
    by_cases hst : (p.status == "styling") = true
    · rw [if_pos hst]
      cases hfind : projects.find? (fun pr => pr.id == p.projectId) with
      | some pr =>
        cases hsty : pr.style with
        | none =>
          simp only [List.singleton_append, List.foldl_cons, stuckRowStep, hsty]
          rw [set_append_cons]
          have hh := ih (pre ++ [{ p with status := "uploaded" }]) acc
          rw [List.length_append, List.length_singleton] at hh
          simp only [List.append_assoc, List.singleton_append] at hh
          rw [hh]
          have hcl : claimedResumeStep projects p = { p with status := "uploaded" } := by
            simp [claimedResumeStep, hst, hfind, hsty]
          rw [hcl]
          simp [claimedResumeTasks, hst, hfind, hsty]
        | some st =>
          simp only [List.singleton_append, List.foldl_cons, stuckRowStep, hsty]
          have hh := ih (pre ++ [p]) (acc ++ [⟨p.id, st, pr.stylePrompt⟩])
          rw [List.length_append, List.length_singleton] at hh
          simp only [List.append_assoc, List.singleton_append] at hh
          rw [hh]
          have hcl : claimedResumeStep projects p = p := by
            simp [claimedResumeStep, hst, hfind, hsty]
          rw [hcl]
          simp [claimedResumeTasks, hst, hfind, hsty]
      | none =>
        simp only [List.nil_append]
        have hh := ih (pre ++ [p]) acc
        rw [List.length_append, List.length_singleton] at hh
        simp only [List.append_assoc, List.singleton_append] at hh
        rw [hh]
        have hcl : claimedResumeStep projects p = p := by
          simp [claimedResumeStep, hst, hfind]
        rw [hcl]
        simp [claimedResumeTasks, hst, hfind]
    · rw [if_neg hst]
      simp only [List.nil_append]
      have hh := ih (pre ++ [p]) acc
      rw [List.length_append, List.length_singleton] at hh
      simp only [List.append_assoc, List.singleton_append] at hh
      rw [hh]
      have hcl : claimedResumeStep projects p = p := by
        simp [claimedResumeStep, hst]
      rw [hcl]
      simp [claimedResumeTasks, hst]

/-- C8: the startup sweep handles every `"styling"` photo exactly as the
claim states — the final photo table maps each photo through
`claimedResumeStep` (a `"styling"` photo of a style-less project is reset to
`"uploaded"`, everything else is untouched), and the submitted tasks are
exactly one resume per `"styling"` photo whose project has a style,
carrying the project's current style and custom prompt. -/
theorem resumeStuck_characterization (photos : List Photo)
    (projects : List Project) :
    resumeStuckStyleTransfers photos projects
    = (photos.map (claimedResumeStep projects),
       claimedResumeTasks projects photos) := by
  have hh := stuckRows_fold_eq projects photos [] []
  simpa [resumeStuckStyleTransfers] using hh

/-! ## C6: the single-selection invariant

The selection operations of the routes: selecting a styled variant
(`styles.py`, `select_photo_variant`), selecting a scene video
(`videos.py`, `select_photo_video`), committing a styled result
(`save_photo_result`), creating a new scene video row
(`generate_video_from_photo`) and the commit of a completed generation
(`process_video_generation`, modelled above). -/

/-- Deselect a variant when it belongs to the photo. -/
def deselVarFn (photoId : Nat) (v : StyledVariant) : StyledVariant :=
  if v.photoId == photoId then { v with isSelected := false } else v

/-- Select a variant when it is the chosen one. -/
def selVarFn (variantId : Nat) (v : StyledVariant) : StyledVariant :=
  if v.id == variantId then { v with isSelected := true } else v

/-- Deselect a video when it belongs to the photo. -/
def deselVidFn (photoId : Nat) (v : Video) : Video :=
  if v.photoId == some photoId then { v with isSelected := false } else v

/-- Select a video when it is the chosen one. -/
def selVidFn (videoId : Nat) (v : Video) : Video :=
  if v.id == videoId then { v with isSelected := true } else v

/-- Deselect a scene video of the photo (the deselect pass of
`generate_video_from_photo` and `process_video_generation`). -/
def deselSceneFn (photoId : Nat) (v : Video) : Video :=
  if v.photoId == some photoId && v.videoType == "scene"
  then { v with isSelected := false } else v

/-- `select_photo_variant` (`styles.py`, lines 439-497): after verifying the
variant belongs to the photo, deselect every variant of the photo, select
the chosen one, and mirror its styled path onto the photo — one commit.
Missing photo or variant is rejected without change (404 before any
write). -/
def selectPhotoVariant (db : DB) (photoId variantId : Nat) : DB :=
  if db.photos.any (fun p => p.id == photoId)
      && db.variants.any (fun v => v.id == variantId && v.photoId == photoId) then
    let path := ((db.variants.find? (fun v =>
      v.id == variantId && v.photoId == photoId)).map
        StyledVariant.styledPath).getD ""
    { db with
      variants := (db.variants.map (deselVarFn photoId)).map (selVarFn variantId)
      photos := db.photos.map (fun p =>
        if p.id == photoId then { p with styledPath := some path } else p) }
  else db

/-- `select_photo_video` (`videos.py`, lines 404-454): after verifying the
video belongs to the photo, deselect every video of the photo and select the
chosen one — one commit.  Missing photo or video is rejected without
change. -/
def selectPhotoVideo (db : DB) (photoId videoId : Nat) : DB :=
  if db.photos.any (fun p => p.id == photoId)
      && db.videos.any (fun v => v.id == videoId && v.photoId == some photoId) then
    { db with
      videos := (db.videos.map (deselVidFn photoId)).map (selVidFn videoId) }
  else db

/-- The store effect of `generate_video_from_photo` (`videos.py`, lines
147-171): deselect the photo's existing scene videos and insert the new
scene row unselected (selection happens when generation completes). -/
def createSceneVideo (db : DB) (photoId projectId : Nat) (position : Nat) : DB :=
  { db with
    videos := (db.videos.map (deselSceneFn photoId))
      ++ [⟨db.nextVideoId, some photoId, projectId, none, "scene", none, none,
           some position, "pending", false⟩]
    nextVideoId := db.nextVideoId + 1 }

/-- The selection-relevant operations, as the claim ranges over them. -/
inductive SelOp where
  | selVariant (photoId variantId : Nat)
  | selVideo (photoId videoId : Nat)
  | saveResult (photoId : Nat) (styledPath style : String)
  | createVideo (photoId projectId position : Nat)
  | videoGen (videoId : Nat) (photoIdParam : Option Nat) (genOk : Option String)
  deriving Repr, DecidableEq

def applySelOp (db : DB) (op : SelOp) : DB :=
  match op with
  | .selVariant pid vid => selectPhotoVariant db pid vid
  | .selVideo pid vid => selectPhotoVideo db pid vid
  | .saveResult pid path style => savePhotoResult db pid path style true
  | .createVideo pid prj pos => createSceneVideo db pid prj pos
  | .videoGen vid pidp gen => (processVideoGeneration db vid pidp gen).db

def applySelOps (db : DB) (ops : List SelOp) : DB :=
  ops.foldl applySelOp db

/-- Call-site consistency of `process_video_generation` parameters: both
callers pass the generated row's own photo id (`generate_video_from_photo`
creates the scene row with that photo id) or leave it unset for a transition
row (`generate_transition_video` creates the row without a photo id), so the
passed `photo_id` always agrees with the row. -/
def opOK (db : DB) : SelOp → Prop
  | .videoGen vid pidp _ =>
    ∀ v ∈ db.videos, v.id = vid →
      v.photoId = pidp ∧ (pidp ≠ none → v.videoType = "scene")
  | _ => True

instance (db : DB) (op : SelOp) : Decidable (opOK db op) := by
  cases op <;> simp only [opOK] <;> infer_instance

def opsOK : DB → List SelOp → Prop
  | _, [] => True
  | db, op :: ops => opOK db op ∧ opsOK (applySelOp db op) ops

def opsOKDec : (db : DB) → (ops : List SelOp) → Decidable (opsOK db ops)
  | _, [] => .isTrue trivial
  | db, op :: ops =>
    haveI := opsOKDec (applySelOp db op) ops
    inferInstanceAs (Decidable (opOK db op ∧ opsOK (applySelOp db op) ops))

instance (db : DB) (ops : List SelOp) : Decidable (opsOK db ops) :=
  opsOKDec db ops

/-- Number of selected variants of a photo. -/
def selCountV (l : List StyledVariant) (pid : Nat) : Nat :=
  (l.filter (fun v => v.photoId == pid && v.isSelected)).length

/-- Number of selected videos tied to a photo. -/
def selCountVid (l : List Video) (pid : Nat) : Nat :=
  (l.filter (fun v => v.photoId == some pid && v.isSelected)).length

/-- The selection invariant: primary-key uniqueness and id-watermark
freshness for variants and videos, every photo-tied video row is a scene
row, and — the claim's property — at most one selected variant per photo
and at most one selected video per photo. -/
def SelInv (db : DB) : Prop :=
  (db.variants.map StyledVariant.id).Nodup
  ∧ (∀ v ∈ db.variants, v.id < db.nextVariantId)
  ∧ (∀ v ∈ db.variants, selCountV db.variants v.photoId ≤ 1)
  ∧ (db.videos.map Video.id).Nodup
  ∧ (∀ v ∈ db.videos, v.id < db.nextVideoId)
  ∧ (∀ v ∈ db.videos, ∀ pid, v.photoId = some pid → v.videoType = "scene")
  ∧ (∀ v ∈ db.videos, ∀ pid, v.photoId = some pid → selCountVid db.videos pid ≤ 1)

instance (db : DB) : Decidable (SelInv db) := by
  unfold SelInv; infer_instance

theorem length_filter_map_eq {α : Type} (f : α → α) (p q : α → Bool) :
    ∀ (l : List α), (∀ v ∈ l, p (f v) = q v) →
      ((l.map f).filter p).length = (l.filter q).length := by
  intro l
  induction l with
  | nil => intro _; rfl
  | cons a l ih =>
    intro h
    have ha := h a (List.mem_cons_self _ _)
    have hl := fun v hv => h v (List.mem_cons_of_mem _ hv)
    simp only [List.map_cons, List.filter_cons, ha]
    by_cases hqa : q a = true
    · rw [if_pos hqa, if_pos hqa, List.length_cons, List.length_cons, ih hl]
    · rw [if_neg hqa, if_neg hqa]
      exact ih hl

theorem length_filter_map_le {α : Type} (f : α → α) (p : α → Bool) :
    ∀ (l : List α), (∀ v ∈ l, p (f v) = true → p v = true) →
      ((l.map f).filter p).length ≤ (l.filter p).length := by
  intro l
  induction l with
  | nil => intro _; exact Nat.le_refl _
  | cons a l ih =>
    intro h
    have ha := h a (List.mem_cons_self _ _)
    have hl := fun v hv => h v (List.mem_cons_of_mem _ hv)
    simp only [List.map_cons, List.filter_cons]
    by_cases hpa : p (f a) = true
    · rw [if_pos hpa, if_pos (ha hpa), List.length_cons, List.length_cons]
      exact Nat.succ_le_succ (ih hl)
    · rw [if_neg hpa]
      by_cases hqa : p a = true
      · rw [if_pos hqa, List.length_cons]
        exact Nat.le_trans (ih hl) (Nat.le_succ _)
      · rw [if_neg hqa]
        exact ih hl

theorem length_filter_beq_le_one {α : Type} (g : α → Nat) (k : Nat) :
    ∀ (l : List α), (l.map g).Nodup →
      (l.filter (fun v => g v == k)).length ≤ 1 := by
  intro l
  induction l with
  | nil => intro _; exact Nat.zero_le 1
  | cons a l ih =>
    intro hnd
    rw [List.map_cons] at hnd
    obtain ⟨hnin, hnd2⟩ := List.nodup_cons.mp hnd
    simp only [List.filter_cons]
    by_cases ha : (g a == k) = true
    · rw [if_pos ha]
      have hk : g a = k := by simpa using ha
      have hz : l.filter (fun v => g v == k) = [] := by
        rw [List.filter_eq_nil_iff]
        intro v hv hvk
        refine hnin ?_
        have : g v = g a := by
          rw [hk]
          simpa using hvk
        rw [← this]
        exact List.mem_map.mpr ⟨v, hv, rfl⟩
      rw [List.length_cons, hz]
      exact Nat.le_refl 1
    · rw [if_neg ha]
      exact ih hnd2

theorem map_id_eq {α : Type} (f : α → α) (g : α → Nat) :
    ∀ (l : List α), (∀ v ∈ l, g (f v) = g v) → (l.map f).map g = l.map g := by
  intro l
  induction l with
  | nil => intro _; rfl
  | cons a l ih =>
    intro h
    simp only [List.map_cons]
    rw [h a (List.mem_cons_self _ _), ih (fun v hv => h v (List.mem_cons_of_mem _ hv))]


/-- `update_video_status` per-row step with a fixed status (the shape used by
`process_video_generation` for the `"generating"` and `"failed"` commits). -/
def statusFn (videoId : Nat) (status : String) (v : Video) : Video :=
  if v.id == videoId then { v with status := status } else v

/-- The success write of `process_video_generation`: path, ready and selected
on the generated row, one transaction. -/
def readyFn (videoId : Nat) (path : String) (v : Video) : Video :=
  if v.id == videoId
  then { v with videoPath := some path, status := "ready", isSelected := true }
  else v

theorem deselVarFn_id (pid : Nat) (v : StyledVariant) :
    (deselVarFn pid v).id = v.id := by
  unfold deselVarFn; split <;> rfl

theorem deselVarFn_photoId (pid : Nat) (v : StyledVariant) :
    (deselVarFn pid v).photoId = v.photoId := by
  unfold deselVarFn; split <;> rfl

theorem selVarFn_id (vid : Nat) (v : StyledVariant) :
    (selVarFn vid v).id = v.id := by
  unfold selVarFn; split <;> rfl

theorem selVarFn_photoId (vid : Nat) (v : StyledVariant) :
    (selVarFn vid v).photoId = v.photoId := by
  unfold selVarFn; split <;> rfl

theorem deselVidFn_id (pid : Nat) (v : Video) :
    (deselVidFn pid v).id = v.id := by
  unfold deselVidFn; split <;> rfl

theorem deselVidFn_photoId (pid : Nat) (v : Video) :
    (deselVidFn pid v).photoId = v.photoId := by
  unfold deselVidFn; split <;> rfl

theorem deselVidFn_videoType (pid : Nat) (v : Video) :
    (deselVidFn pid v).videoType = v.videoType := by
  unfold deselVidFn; split <;> rfl

theorem selVidFn_id (vid : Nat) (v : Video) :
    (selVidFn vid v).id = v.id := by
  unfold selVidFn; split <;> rfl

theorem selVidFn_photoId (vid : Nat) (v : Video) :
    (selVidFn vid v).photoId = v.photoId := by
  unfold selVidFn; split <;> rfl

theorem selVidFn_videoType (vid : Nat) (v : Video) :
    (selVidFn vid v).videoType = v.videoType := by
  unfold selVidFn; split <;> rfl

theorem deselSceneFn_id (pid : Nat) (v : Video) :
    (deselSceneFn pid v).id = v.id := by
  unfold deselSceneFn; split <;> rfl

theorem deselSceneFn_photoId (pid : Nat) (v : Video) :
    (deselSceneFn pid v).photoId = v.photoId := by
  unfold deselSceneFn; split <;> rfl

theorem deselSceneFn_videoType (pid : Nat) (v : Video) :
    (deselSceneFn pid v).videoType = v.videoType := by
  unfold deselSceneFn; split <;> rfl

theorem statusFn_id (vid : Nat) (s : String) (v : Video) :
    (statusFn vid s v).id = v.id := by
  unfold statusFn; split <;> rfl

theorem statusFn_photoId (vid : Nat) (s : String) (v : Video) :
    (statusFn vid s v).photoId = v.photoId := by
  unfold statusFn; split <;> rfl

theorem statusFn_videoType (vid : Nat) (s : String) (v : Video) :
    (statusFn vid s v).videoType = v.videoType := by
  unfold statusFn; split <;> rfl

theorem statusFn_isSelected (vid : Nat) (s : String) (v : Video) :
    (statusFn vid s v).isSelected = v.isSelected := by
  unfold statusFn; split <;> rfl

theorem readyFn_id (vid : Nat) (path : String) (v : Video) :
    (readyFn vid path v).id = v.id := by
  unfold readyFn; split <;> rfl

theorem readyFn_photoId (vid : Nat) (path : String) (v : Video) :
    (readyFn vid path v).photoId = v.photoId := by
  unfold readyFn; split <;> rfl

theorem readyFn_videoType (vid : Nat) (path : String) (v : Video) :
    (readyFn vid path v).videoType = v.videoType := by
  unfold readyFn; split <;> rfl

theorem selectPhotoVariant_selInv (db : DB) (pid vid : Nat)
    (h : SelInv db) : SelInv (selectPhotoVariant db pid vid) := by
  obtain ⟨V1, V2, V3, W1, W2, W0, W3⟩ := h
  unfold selectPhotoVariant
  by_cases hguard : (db.photos.any (fun p => p.id == pid)
      && db.variants.any (fun v => v.id == vid && v.photoId == pid)) = true
  · rw [if_pos hguard]
    simp only [Bool.and_eq_true] at hguard
    obtain ⟨x, hxmem, hxc⟩ := List.any_eq_true.mp hguard.2
    simp only [Bool.and_eq_true, beq_iff_eq] at hxc
    have hrow : ∀ v ∈ db.variants, v.id = vid → v.photoId = pid := by
      intro v hv hvid
      have hveq : v = x :=
        List.inj_on_of_nodup_map V1 hv hxmem (by rw [hvid, hxc.1])
      rw [hveq, hxc.2]
    have hcomp : (db.variants.map (deselVarFn pid)).map (selVarFn vid)
        = db.variants.map (selVarFn vid ∘ deselVarFn pid) :=
      List.map_map _ _ _
    refine ⟨?_, ?_, ?_, W1, W2, W0, W3⟩
    · show (((db.variants.map (deselVarFn pid)).map (selVarFn vid)).map
        StyledVariant.id).Nodup
      rw [map_id_eq (selVarFn vid) StyledVariant.id _
          (fun v _ => selVarFn_id vid v),
        map_id_eq (deselVarFn pid) StyledVariant.id _
          (fun v _ => deselVarFn_id pid v)]
      exact V1
    · intro v hv
      have hv2 : v ∈ (db.variants.map (deselVarFn pid)).map (selVarFn vid) := hv
      obtain ⟨w, hw, rfl⟩ := List.mem_map.mp hv2
      obtain ⟨u, hu, rfl⟩ := List.mem_map.mp hw
      show (selVarFn vid (deselVarFn pid u)).id < db.nextVariantId
      rw [selVarFn_id, deselVarFn_id]
      exact V2 u hu
    · intro v hv
      have hv2 : v ∈ (db.variants.map (deselVarFn pid)).map (selVarFn vid) := hv
      obtain ⟨w, hw, rfl⟩ := List.mem_map.mp hv2
      obtain ⟨u, hu, rfl⟩ := List.mem_map.mp hw
      have hph : (selVarFn vid (deselVarFn pid u)).photoId = u.photoId := by
        rw [selVarFn_photoId, deselVarFn_photoId]
      show selCountV ((db.variants.map (deselVarFn pid)).map (selVarFn vid))
        (selVarFn vid (deselVarFn pid u)).photoId ≤ 1
      rw [hph]
      by_cases hqp : u.photoId = pid
      · rw [hqp]
        have heq : selCountV
            ((db.variants.map (deselVarFn pid)).map (selVarFn vid)) pid
            = (db.variants.filter (fun v => v.id == vid)).length := by
          unfold selCountV
          rw [hcomp]
          refine length_filter_map_eq _ _ _ db.variants ?_
          intro v hv
          by_cases hvid : v.id = vid
          · have hb1 : (v.id == vid) = true := by simpa using hvid
            have hb2 : (v.photoId == pid) = true := by
              simpa using hrow v hv hvid
            simp [selVarFn, deselVarFn, Function.comp, hb1, hb2]
          · have hb1 : (v.id == vid) = false := beq_eq_false_iff_ne.mpr hvid
            by_cases hb2 : (v.photoId == pid) = true
            · simp [selVarFn, deselVarFn, Function.comp, hb1, hb2]
            · simp [selVarFn, deselVarFn, Function.comp, hb1, hb2]
        rw [heq]
        exact length_filter_beq_le_one StyledVariant.id vid db.variants V1
      · have heq : selCountV
            ((db.variants.map (deselVarFn pid)).map (selVarFn vid)) u.photoId
            = selCountV db.variants u.photoId := by
          unfold selCountV
          rw [hcomp]
          refine length_filter_map_eq _ _ _ db.variants ?_
          intro v hv
          by_cases hvid : v.id = vid
          · have hb1 : (v.id == vid) = true := by simpa using hvid
            have hpe : v.photoId = pid := hrow v hv hvid
            have hb2 : (v.photoId == pid) = true := by simpa using hpe
            have hb3 : ((pid : Nat) == u.photoId) = false :=
              beq_eq_false_iff_ne.mpr (fun hh => hqp hh.symm)
            simp [selVarFn, deselVarFn, Function.comp, hb1, hb2, hpe, hb3]
          · have hb1 : (v.id == vid) = false := beq_eq_false_iff_ne.mpr hvid
            by_cases hb2 : (v.photoId == pid) = true
            · have hpe : v.photoId = pid := by simpa using hb2
              have hb3 : ((pid : Nat) == u.photoId) = false :=
                beq_eq_false_iff_ne.mpr (fun hh => hqp hh.symm)
              simp [selVarFn, deselVarFn, Function.comp, hb1, hb2, hpe, hb3]
            · simp [selVarFn, deselVarFn, Function.comp, hb1, hb2]
        rw [heq]
        exact V3 u hu
  · rw [if_neg hguard]
    exact ⟨V1, V2, V3, W1, W2, W0, W3⟩



theorem selectPhotoVideo_selInv (db : DB) (pid vid : Nat)
    (h : SelInv db) : SelInv (selectPhotoVideo db pid vid) := by
  obtain ⟨V1, V2, V3, W1, W2, W0, W3⟩ := h
  unfold selectPhotoVideo
  by_cases hguard : (db.photos.any (fun p => p.id == pid)
      && db.videos.any (fun v => v.id == vid && v.photoId == some pid)) = true
  · rw [if_pos hguard]
    simp only [Bool.and_eq_true] at hguard
    obtain ⟨x, hxmem, hxc⟩ := List.any_eq_true.mp hguard.2
    simp only [Bool.and_eq_true, beq_iff_eq] at hxc
    have hrow : ∀ v ∈ db.videos, v.id = vid → v.photoId = some pid := by
      intro v hv hvid
      have hveq : v = x :=
        List.inj_on_of_nodup_map W1 hv hxmem (by rw [hvid, hxc.1])
      rw [hveq, hxc.2]
    have hcomp : (db.videos.map (deselVidFn pid)).map (selVidFn vid)
        = db.videos.map (selVidFn vid ∘ deselVidFn pid) :=
      List.map_map _ _ _
    refine ⟨V1, V2, V3, ?_, ?_, ?_, ?_⟩
    · show (((db.videos.map (deselVidFn pid)).map (selVidFn vid)).map
        Video.id).Nodup
      rw [map_id_eq (selVidFn vid) Video.id _
          (fun v _ => selVidFn_id vid v),
        map_id_eq (deselVidFn pid) Video.id _
          (fun v _ => deselVidFn_id pid v)]
      exact W1
    · intro v hv
      have hv2 : v ∈ (db.videos.map (deselVidFn pid)).map (selVidFn vid) := hv
      obtain ⟨w, hw, rfl⟩ := List.mem_map.mp hv2
      obtain ⟨u, hu, rfl⟩ := List.mem_map.mp hw
      show (selVidFn vid (deselVidFn pid u)).id < db.nextVideoId
      rw [selVidFn_id, deselVidFn_id]
      exact W2 u hu
    · intro v hv q hq
      have hv2 : v ∈ (db.videos.map (deselVidFn pid)).map (selVidFn vid) := hv
      obtain ⟨w, hw, hvw⟩ := List.mem_map.mp hv2
      obtain ⟨u, hu, hwu⟩ := List.mem_map.mp hw
      have hty : v.videoType = u.videoType := by
        rw [← hvw, ← hwu, selVidFn_videoType, deselVidFn_videoType]
      have hphq : u.photoId = some q := by
        rw [← hvw, ← hwu, selVidFn_photoId, deselVidFn_photoId] at hq
        exact hq
      rw [hty]
      exact W0 u hu q hphq
    · intro v hv q hq
      have hv2 : v ∈ (db.videos.map (deselVidFn pid)).map (selVidFn vid) := hv
      obtain ⟨w, hw, hvw⟩ := List.mem_map.mp hv2
      obtain ⟨u, hu, hwu⟩ := List.mem_map.mp hw
      have hphq : u.photoId = some q := by
        rw [← hvw, ← hwu, selVidFn_photoId, deselVidFn_photoId] at hq
        exact hq
      show selCountVid ((db.videos.map (deselVidFn pid)).map (selVidFn vid))
        q ≤ 1
      by_cases hqp : q = pid
      · rw [hqp]
        have heq : selCountVid
            ((db.videos.map (deselVidFn pid)).map (selVidFn vid)) pid
            = (db.videos.filter (fun v => v.id == vid)).length := by
          unfold selCountVid
          rw [hcomp]
          refine length_filter_map_eq _ _ _ db.videos ?_
          intro v hv
          by_cases hvid : v.id = vid
          · have hb1 : (v.id == vid) = true := by simpa using hvid
            have hb2 : (v.photoId == some pid) = true := by
              simpa using hrow v hv hvid
            simp [selVidFn, deselVidFn, Function.comp, hb1, hb2]
          · have hb1 : (v.id == vid) = false := beq_eq_false_iff_ne.mpr hvid
            by_cases hb2 : (v.photoId == some pid) = true
            · simp [selVidFn, deselVidFn, Function.comp, hb1, hb2]
            · simp [selVidFn, deselVidFn, Function.comp, hb1, hb2]
        rw [heq]
        exact length_filter_beq_le_one Video.id vid db.videos W1
      · have heq : selCountVid
            ((db.videos.map (deselVidFn pid)).map (selVidFn vid)) q
            = selCountVid db.videos q := by
          unfold selCountVid
          rw [hcomp]
          refine length_filter_map_eq _ _ _ db.videos ?_
          intro v hv
          by_cases hvid : v.id = vid
          · have hb1 : (v.id == vid) = true := by simpa using hvid
            have hpe : v.photoId = some pid := hrow v hv hvid
            have hb2 : (v.photoId == some pid) = true := by simpa using hpe
            have hb3 : ((some pid : Option Nat) == some q) = false :=
              beq_eq_false_iff_ne.mpr
                (fun hh => hqp (Option.some.inj hh).symm)
            simp [selVidFn, deselVidFn, Function.comp, hb1, hb2, hpe, hb3]
          · have hb1 : (v.id == vid) = false := beq_eq_false_iff_ne.mpr hvid
            by_cases hb2 : (v.photoId == some pid) = true
            · have hpe : v.photoId = some pid := by simpa using hb2
              have hb3 : ((some pid : Option Nat) == some q) = false :=
                beq_eq_false_iff_ne.mpr
                  (fun hh => hqp (Option.some.inj hh).symm)
              simp [selVidFn, deselVidFn, Function.comp, hb1, hb2, hpe, hb3]
            · simp [selVidFn, deselVidFn, Function.comp, hb1, hb2]
        rw [heq]
        exact W3 u hu q hphq
  · rw [if_neg hguard]
    exact ⟨V1, V2, V3, W1, W2, W0, W3⟩



theorem savePR_count (l : List StyledVariant) (pid nid : Nat)
    (path style : String)
    (hcnt : ∀ v ∈ l, selCountV l v.photoId ≤ 1) :
    ∀ v ∈ l.map (deselVarFn pid) ++ [⟨nid, pid, path, style, true⟩],
      selCountV (l.map (deselVarFn pid) ++ [⟨nid, pid, path, style, true⟩])
        v.photoId ≤ 1 := by
  have hApid : ((l.map (deselVarFn pid)).filter
      (fun v => v.photoId == pid && v.isSelected)).length = 0 := by
    rw [List.length_eq_zero, List.filter_eq_nil_iff]
    intro v hv
    obtain ⟨w, hw, rfl⟩ := List.mem_map.mp hv
    by_cases hwp : (w.photoId == pid) = true
    · simp [deselVarFn, hwp]
    · simp [deselVarFn, hwp]
  have hAq : ∀ q, q ≠ pid → ((l.map (deselVarFn pid)).filter
      (fun v => v.photoId == q && v.isSelected)).length = selCountV l q := by
    intro q hq
    unfold selCountV
    refine length_filter_map_eq _ _ _ l ?_
    intro v hv
    by_cases hpv : (v.photoId == pid) = true
    · have hpe : v.photoId = pid := by simpa using hpv
      have hb3 : (v.photoId == q) = false := by
        rw [hpe]
        exact beq_eq_false_iff_ne.mpr (fun hh => hq hh.symm)
      simp [deselVarFn, hpv, hb3]
    · simp [deselVarFn, hpv]
  intro v hv
  rcases List.mem_append.mp hv with hL | hR
  · obtain ⟨w, hw, rfl⟩ := List.mem_map.mp hL
    rw [deselVarFn_photoId]
    by_cases hqp : w.photoId = pid
    · rw [hqp]
      unfold selCountV
      rw [List.filter_append, List.length_append, hApid]
      simp [List.filter]
    · unfold selCountV
      rw [List.filter_append, List.length_append, hAq _ hqp]
      have hnew : (([⟨nid, pid, path, style, true⟩] :
          List StyledVariant).filter
          (fun v => v.photoId == w.photoId && v.isSelected)).length = 0 := by
        have hb : ((pid : Nat) == w.photoId) = false :=
          beq_eq_false_iff_ne.mpr (fun hh => hqp hh.symm)
        simp [List.filter, hb]
      rw [hnew, Nat.add_zero]
      exact hcnt w hw
  · rw [List.mem_singleton] at hR
    rw [hR]
    show selCountV
      (l.map (deselVarFn pid) ++ [⟨nid, pid, path, style, true⟩]) pid ≤ 1
    unfold selCountV
    rw [List.filter_append, List.length_append, hApid]
    simp [List.filter]

theorem savePhotoResult_selInv (db : DB) (pid : Nat) (path style : String)
    (h : SelInv db) : SelInv (savePhotoResult db pid path style true) := by
  obtain ⟨V1, V2, V3, W1, W2, W0, W3⟩ := h
  unfold savePhotoResult
  by_cases hguard : (db.photos.any (fun p => p.id == pid)) = true
  · rw [if_pos hguard]
    refine ⟨?_, ?_, ?_, W1, W2, W0, W3⟩
    · show ((db.variants.map (deselVarFn pid)
        ++ ([⟨db.nextVariantId, pid, path, style, true⟩] :
          List StyledVariant)).map
        StyledVariant.id).Nodup
      rw [List.map_append,
        map_id_eq (deselVarFn pid) StyledVariant.id _
          (fun v _ => deselVarFn_id pid v)]
      rw [List.nodup_append]
      refine ⟨V1, List.nodup_singleton _, ?_⟩
      intro a ha hb
      obtain ⟨w, hw, rfl⟩ := List.mem_map.mp ha
      simp only [List.map_cons, List.map_nil, List.mem_singleton] at hb
      have hlt := V2 w hw
      rw [hb] at hlt
      exact absurd hlt (Nat.lt_irrefl _)
    · intro v hv
      have hv2 : v ∈ db.variants.map (deselVarFn pid)
          ++ [⟨db.nextVariantId, pid, path, style, true⟩] := hv
      rcases List.mem_append.mp hv2 with hL | hR
      · obtain ⟨w, hw, rfl⟩ := List.mem_map.mp hL
        show (deselVarFn pid w).id < db.nextVariantId + 1
        rw [deselVarFn_id]
        exact Nat.lt_succ_of_lt (V2 w hw)
      · rw [List.mem_singleton] at hR
        rw [hR]
        exact Nat.lt_succ_self _
    · intro v hv
      have hv2 : v ∈ db.variants.map (deselVarFn pid)
          ++ [⟨db.nextVariantId, pid, path, style, true⟩] := hv
      exact savePR_count db.variants pid db.nextVariantId path style V3 v hv2
  · rw [if_neg hguard]
    exact ⟨V1, V2, V3, W1, W2, W0, W3⟩



theorem createSceneVideo_selInv (db : DB) (pid prj pos : Nat)
    (h : SelInv db) : SelInv (createSceneVideo db pid prj pos) := by
  obtain ⟨V1, V2, V3, W1, W2, W0, W3⟩ := h
  unfold createSceneVideo
  have hApid : ((db.videos.map (deselSceneFn pid)).filter
      (fun v => v.photoId == some pid && v.isSelected)).length = 0 := by
    rw [List.length_eq_zero, List.filter_eq_nil_iff]
    intro v hv
    obtain ⟨w, hw, rfl⟩ := List.mem_map.mp hv
    by_cases hwp : (w.photoId == some pid) = true
    · have hwpe : w.photoId = some pid := by simpa using hwp
      have hsc : (w.videoType == "scene") = true := by
        simpa using W0 w hw pid hwpe
      simp [deselSceneFn, hwp, hsc]
    · simp [deselSceneFn, hwp]
  have hAq : ∀ q, q ≠ pid → ((db.videos.map (deselSceneFn pid)).filter
      (fun v => v.photoId == some q && v.isSelected)).length
      = selCountVid db.videos q := by
    intro q hq
    unfold selCountVid
    refine length_filter_map_eq _ _ _ db.videos ?_
    intro v hv
    by_cases hvp : (v.photoId == some pid) = true
    · have hvpe : v.photoId = some pid := by simpa using hvp
      have hb3 : (v.photoId == some q) = false := by
        rw [hvpe]
        exact beq_eq_false_iff_ne.mpr
          (fun hh => hq (Option.some.inj hh).symm)
      by_cases hsc : (v.videoType == "scene") = true
      · simp [deselSceneFn, hvp, hsc, hb3]
      · simp [deselSceneFn, hvp, hsc, hb3]
    · simp [deselSceneFn, hvp]
  refine ⟨V1, V2, V3, ?_, ?_, ?_, ?_⟩
  · show ((db.videos.map (deselSceneFn pid)
      ++ ([⟨db.nextVideoId, some pid, prj, none, "scene", none, none,
          some pos, "pending", false⟩] : List Video)).map Video.id).Nodup
    rw [List.map_append,
      map_id_eq (deselSceneFn pid) Video.id _
        (fun v _ => deselSceneFn_id pid v)]
    rw [List.nodup_append]
    refine ⟨W1, List.nodup_singleton _, ?_⟩
    intro a ha hb
    obtain ⟨w, hw, rfl⟩ := List.mem_map.mp ha
    simp only [List.map_cons, List.map_nil, List.mem_singleton] at hb
    have hlt := W2 w hw
    rw [hb] at hlt
    exact absurd hlt (Nat.lt_irrefl _)
  · intro v hv
    have hv2 : v ∈ db.videos.map (deselSceneFn pid)
        ++ ([⟨db.nextVideoId, some pid, prj, none, "scene", none, none,
            some pos, "pending", false⟩] : List Video) := hv
    rcases List.mem_append.mp hv2 with hL | hR
    · obtain ⟨w, hw, rfl⟩ := List.mem_map.mp hL
      show (deselSceneFn pid w).id < db.nextVideoId + 1
      rw [deselSceneFn_id]
      exact Nat.lt_succ_of_lt (W2 w hw)
    · rw [List.mem_singleton] at hR
      rw [hR]
      exact Nat.lt_succ_self _
  · intro v hv q hq
    have hv2 : v ∈ db.videos.map (deselSceneFn pid)
        ++ ([⟨db.nextVideoId, some pid, prj, none, "scene", none, none,
            some pos, "pending", false⟩] : List Video) := hv
    rcases List.mem_append.mp hv2 with hL | hR
    · obtain ⟨w, hw, hvw⟩ := List.mem_map.mp hL
      have hty : v.videoType = w.videoType := by
        rw [← hvw, deselSceneFn_videoType]
      have hphq : w.photoId = some q := by
        rw [← hvw, deselSceneFn_photoId] at hq
        exact hq
      rw [hty]
      exact W0 w hw q hphq
    · rw [List.mem_singleton] at hR
      rw [hR]
  · intro v hv q hq
    have hv2 : v ∈ db.videos.map (deselSceneFn pid)
        ++ ([⟨db.nextVideoId, some pid, prj, none, "scene", none, none,
            some pos, "pending", false⟩] : List Video) := hv
    show selCountVid (db.videos.map (deselSceneFn pid)
      ++ ([⟨db.nextVideoId, some pid, prj, none, "scene", none, none,
          some pos, "pending", false⟩] : List Video)) q ≤ 1
    have hnew : ∀ q', (([⟨db.nextVideoId, some pid, prj, none, "scene",
        none, none, some pos, "pending", false⟩] : List Video).filter
        (fun v => v.photoId == some q' && v.isSelected)).length = 0 := by
      intro q'
      simp [List.filter]
    by_cases hqp : q = pid
    · rw [hqp]
      unfold selCountVid
      rw [List.filter_append, List.length_append, hApid, hnew pid]
      exact Nat.zero_le 1
    · unfold selCountVid
      rw [List.filter_append, List.length_append, hAq q hqp, hnew q,
        Nat.add_zero]
      rcases List.mem_append.mp hv2 with hL | hR
      · obtain ⟨w, hw, hvw⟩ := List.mem_map.mp hL
        have hphq : w.photoId = some q := by
          rw [← hvw, deselSceneFn_photoId] at hq
          exact hq
        exact W3 w hw q hphq
      · rw [List.mem_singleton] at hR
        rw [hR] at hq
        exact absurd (Option.some.inj hq) (fun hh => hqp hh.symm)



theorem videoGen_selInv (db : DB) (vid : Nat) (pidp : Option Nat)
    (gen : Option String)
    (hok : opOK db (.videoGen vid pidp gen))
    (h : SelInv db) : SelInv (processVideoGeneration db vid pidp gen).db := by
  obtain ⟨V1, V2, V3, W1, W2, W0, W3⟩ := h
  have hok2 : ∀ v ∈ db.videos, v.id = vid →
      v.photoId = pidp ∧ (pidp ≠ none → v.videoType = "scene") := hok
  cases gen with
  | none =>
    refine ⟨V1, V2, V3, ?_, ?_, ?_, ?_⟩
    · show (((db.videos.map (statusFn vid "generating")).map
        (statusFn vid "failed")).map Video.id).Nodup
      rw [map_id_eq (statusFn vid "failed") Video.id _
          (fun v _ => statusFn_id vid "failed" v),
        map_id_eq (statusFn vid "generating") Video.id _
          (fun v _ => statusFn_id vid "generating" v)]
      exact W1
    · intro v hv
      have hv2 : v ∈ (db.videos.map (statusFn vid "generating")).map
          (statusFn vid "failed") := hv
      obtain ⟨w, hw, rfl⟩ := List.mem_map.mp hv2
      obtain ⟨u, hu, rfl⟩ := List.mem_map.mp hw
      show (statusFn vid "failed" (statusFn vid "generating" u)).id
        < db.nextVideoId
      rw [statusFn_id, statusFn_id]
      exact W2 u hu
    · intro v hv q hq
      have hv2 : v ∈ (db.videos.map (statusFn vid "generating")).map
          (statusFn vid "failed") := hv
      obtain ⟨w, hw, hvw⟩ := List.mem_map.mp hv2
      obtain ⟨u, hu, hwu⟩ := List.mem_map.mp hw
      have hty : v.videoType = u.videoType := by
        rw [← hvw, ← hwu, statusFn_videoType, statusFn_videoType]
      have hphq : u.photoId = some q := by
        rw [← hvw, ← hwu, statusFn_photoId, statusFn_photoId] at hq
        exact hq
      rw [hty]
      exact W0 u hu q hphq
    · intro v hv q hq
      have hv2 : v ∈ (db.videos.map (statusFn vid "generating")).map
          (statusFn vid "failed") := hv
      obtain ⟨w, hw, hvw⟩ := List.mem_map.mp hv2
      obtain ⟨u, hu, hwu⟩ := List.mem_map.mp hw
      have hphq : u.photoId = some q := by
        rw [← hvw, ← hwu, statusFn_photoId, statusFn_photoId] at hq
        exact hq
      show selCountVid ((db.videos.map (statusFn vid "generating")).map
        (statusFn vid "failed")) q ≤ 1
      have heq : selCountVid ((db.videos.map (statusFn vid "generating")).map
          (statusFn vid "failed")) q = selCountVid db.videos q := by
        unfold selCountVid
        rw [List.map_map]
        refine length_filter_map_eq _ _ _ db.videos ?_
        intro v hv
        simp [Function.comp, statusFn_photoId, statusFn_isSelected]
      rw [heq]
      exact W3 u hu q hphq
  | some path =>
    cases pidp with
    | some pid =>
      have hrow : ∀ v ∈ db.videos, v.id = vid →
          v.photoId = some pid ∧ v.videoType = "scene" := by
        intro v hv hvid
        obtain ⟨h1, h2⟩ := hok2 v hv hvid
        exact ⟨h1, h2 (Option.some_ne_none pid)⟩
      refine ⟨V1, V2, V3, ?_, ?_, ?_, ?_⟩
      · show ((((db.videos.map (statusFn vid "generating")).map
          (deselSceneFn pid)).map (readyFn vid path)).map Video.id).Nodup
        rw [map_id_eq (readyFn vid path) Video.id _
            (fun v _ => readyFn_id vid path v),
          map_id_eq (deselSceneFn pid) Video.id _
            (fun v _ => deselSceneFn_id pid v),
          map_id_eq (statusFn vid "generating") Video.id _
            (fun v _ => statusFn_id vid "generating" v)]
        exact W1
      · intro v hv
        have hv2 : v ∈ ((db.videos.map (statusFn vid "generating")).map
            (deselSceneFn pid)).map (readyFn vid path) := hv
        obtain ⟨w, hw, rfl⟩ := List.mem_map.mp hv2
        obtain ⟨u, hu, rfl⟩ := List.mem_map.mp hw
        obtain ⟨t, ht, rfl⟩ := List.mem_map.mp hu
        show (readyFn vid path (deselSceneFn pid
          (statusFn vid "generating" t))).id < db.nextVideoId
        rw [readyFn_id, deselSceneFn_id, statusFn_id]
        exact W2 t ht
      · intro v hv q hq
        have hv2 : v ∈ ((db.videos.map (statusFn vid "generating")).map
            (deselSceneFn pid)).map (readyFn vid path) := hv
        obtain ⟨w, hw, hvw⟩ := List.mem_map.mp hv2
        obtain ⟨u, hu, hwu⟩ := List.mem_map.mp hw
        obtain ⟨t, ht, hut⟩ := List.mem_map.mp hu
        have hty : v.videoType = t.videoType := by
          rw [← hvw, ← hwu, ← hut, readyFn_videoType, deselSceneFn_videoType,
            statusFn_videoType]
        have hphq : t.photoId = some q := by
          rw [← hvw, ← hwu, ← hut, readyFn_photoId, deselSceneFn_photoId,
            statusFn_photoId] at hq
          exact hq
        rw [hty]
        exact W0 t ht q hphq
      · intro v hv q hq
        have hv2 : v ∈ ((db.videos.map (statusFn vid "generating")).map
            (deselSceneFn pid)).map (readyFn vid path) := hv
        obtain ⟨w, hw, hvw⟩ := List.mem_map.mp hv2
        obtain ⟨u, hu, hwu⟩ := List.mem_map.mp hw
        obtain ⟨t, ht, hut⟩ := List.mem_map.mp hu
        have hphq : t.photoId = some q := by
          rw [← hvw, ← hwu, ← hut, readyFn_photoId, deselSceneFn_photoId,
            statusFn_photoId] at hq
          exact hq
        show selCountVid (((db.videos.map (statusFn vid "generating")).map
          (deselSceneFn pid)).map (readyFn vid path)) q ≤ 1
        by_cases hqp : q = pid
        · rw [hqp]
          have heq : selCountVid (((db.videos.map
              (statusFn vid "generating")).map (deselSceneFn pid)).map
              (readyFn vid path)) pid
              = (db.videos.filter (fun v => v.id == vid)).length := by
            unfold selCountVid
            rw [List.map_map, List.map_map]
            refine length_filter_map_eq _ _ _ db.videos ?_
            intro v hv
            by_cases hvid : v.id = vid
            · obtain ⟨hph, hty⟩ := hrow v hv hvid
              have hb1 : (v.id == vid) = true := by simpa using hvid
              simp [Function.comp, statusFn, deselSceneFn, readyFn, hb1,
                hph, hty]
            · have hb1 : (v.id == vid) = false := beq_eq_false_iff_ne.mpr hvid
              by_cases hvp : (v.photoId == some pid) = true
              · have hvpe : v.photoId = some pid := by simpa using hvp
                have htysc : (v.videoType == "scene") = true := by
                  simpa using W0 v hv pid hvpe
                simp [Function.comp, statusFn, deselSceneFn, readyFn, hb1,
                  hvp, htysc]
              · simp [Function.comp, statusFn, deselSceneFn, readyFn, hb1,
                  hvp]
          rw [heq]
          exact length_filter_beq_le_one Video.id vid db.videos W1
        · have heq : selCountVid (((db.videos.map
              (statusFn vid "generating")).map (deselSceneFn pid)).map
              (readyFn vid path)) q
              = selCountVid db.videos q := by
            unfold selCountVid
            rw [List.map_map, List.map_map]
            refine length_filter_map_eq _ _ _ db.videos ?_
            intro v hv
            by_cases hvid : v.id = vid
            · obtain ⟨hph, hty⟩ := hrow v hv hvid
              have hb1 : (v.id == vid) = true := by simpa using hvid
              have hb3 : ((some pid : Option Nat) == some q) = false :=
                beq_eq_false_iff_ne.mpr
                  (fun hh => hqp (Option.some.inj hh).symm)
              simp [Function.comp, statusFn, deselSceneFn, readyFn, hb1,
                hph, hty, hb3]
            · have hb1 : (v.id == vid) = false := beq_eq_false_iff_ne.mpr hvid
              by_cases hvp : (v.photoId == some pid) = true
              · have hvpe : v.photoId = some pid := by simpa using hvp
                have htysc : (v.videoType == "scene") = true := by
                  simpa using W0 v hv pid hvpe
                have hb3 : ((some pid : Option Nat) == some q) = false :=
                  beq_eq_false_iff_ne.mpr
                    (fun hh => hqp (Option.some.inj hh).symm)
                simp [Function.comp, statusFn, deselSceneFn, readyFn, hb1,
                  hvp, hvpe, htysc, hb3]
              · simp [Function.comp, statusFn, deselSceneFn, readyFn, hb1,
                  hvp]
          rw [heq]
          exact W3 t ht q hphq
    | none =>
      have hrow0 : ∀ v ∈ db.videos, v.id = vid → v.photoId = none := by
        intro v hv hvid
        exact (hok2 v hv hvid).1
      refine ⟨V1, V2, V3, ?_, ?_, ?_, ?_⟩
      · show (((db.videos.map (statusFn vid "generating")).map
          (readyFn vid path)).map Video.id).Nodup
        rw [map_id_eq (readyFn vid path) Video.id _
            (fun v _ => readyFn_id vid path v),
          map_id_eq (statusFn vid "generating") Video.id _
            (fun v _ => statusFn_id vid "generating" v)]
        exact W1
      · intro v hv
        have hv2 : v ∈ (db.videos.map (statusFn vid "generating")).map
            (readyFn vid path) := hv
        obtain ⟨w, hw, rfl⟩ := List.mem_map.mp hv2
        obtain ⟨u, hu, rfl⟩ := List.mem_map.mp hw
        show (readyFn vid path (statusFn vid "generating" u)).id
          < db.nextVideoId
        rw [readyFn_id, statusFn_id]
        exact W2 u hu
      · intro v hv q hq
        have hv2 : v ∈ (db.videos.map (statusFn vid "generating")).map
            (readyFn vid path) := hv
        obtain ⟨w, hw, hvw⟩ := List.mem_map.mp hv2
        obtain ⟨u, hu, hwu⟩ := List.mem_map.mp hw
        have hty : v.videoType = u.videoType := by
          rw [← hvw, ← hwu, readyFn_videoType, statusFn_videoType]
        have hphq : u.photoId = some q := by
          rw [← hvw, ← hwu, readyFn_photoId, statusFn_photoId] at hq
          exact hq
        rw [hty]
        exact W0 u hu q hphq
      · intro v hv q hq
        have hv2 : v ∈ (db.videos.map (statusFn vid "generating")).map
            (readyFn vid path) := hv
        obtain ⟨w, hw, hvw⟩ := List.mem_map.mp hv2
        obtain ⟨u, hu, hwu⟩ := List.mem_map.mp hw
        have hphq : u.photoId = some q := by
          rw [← hvw, ← hwu, readyFn_photoId, statusFn_photoId] at hq
          exact hq
        show selCountVid ((db.videos.map (statusFn vid "generating")).map
          (readyFn vid path)) q ≤ 1
        have heq : selCountVid ((db.videos.map
            (statusFn vid "generating")).map (readyFn vid path)) q
            = selCountVid db.videos q := by
          unfold selCountVid
          rw [List.map_map]
          refine length_filter_map_eq _ _ _ db.videos ?_
          intro v hv
          by_cases hvid : v.id = vid
          · have hph : v.photoId = none := hrow0 v hv hvid
            have hb1 : (v.id == vid) = true := by simpa using hvid
            have hb3 : ((none : Option Nat) == some q) = false := rfl
            simp [Function.comp, statusFn, readyFn, hb1, hph, hb3]
          · have hb1 : (v.id == vid) = false := beq_eq_false_iff_ne.mpr hvid
            simp [Function.comp, statusFn, readyFn, hb1]
        rw [heq]
        exact W3 u hu q hphq



/-- C6: after any selection operation — selecting a styled variant
(`select_photo_variant`), selecting a scene video (`select_photo_video`),
committing a styled result (`save_photo_result` with `save_as_variant`), the
scene-row insertion of `generate_video_from_photo` or the success commit of
`process_video_generation` — and along every sequence of such calls whose
`process_video_generation` parameters agree with the generated row (as at
both call sites), at most one styled variant per photo and at most one scene
video per photo is selected: each operation performs its deselect-all and
select-new writes in the same transaction, so `SelInv` (which also carries
the primary-key and id-watermark facts the argument needs) is preserved. -/
theorem selection_invariant :
    ∀ (ops : List SelOp) (db : DB), SelInv db → opsOK db ops →
      SelInv (applySelOps db ops) := by
  intro ops
  induction ops with
  | nil =>
    intro db h _
    exact h
  | cons op ops ih =>
    intro db h hops
    obtain ⟨h1, h2⟩ := hops
    have hstep : SelInv (applySelOp db op) := by
      cases op with
      | selVariant pid vid => exact selectPhotoVariant_selInv db pid vid h
      | selVideo pid vid => exact selectPhotoVideo_selInv db pid vid h
      | saveResult pid path style =>
        exact savePhotoResult_selInv db pid path style h
      | createVideo pid prj pos =>
        exact createSceneVideo_selInv db pid prj pos h
      | videoGen vid pidp gen => exact videoGen_selInv db vid pidp gen h1 h
    exact ih (applySelOp db op) hstep h2

/-- A concrete store satisfying the selection invariant. -/
def c6DB : DB :=
  { projects := [⟨1, 1, some "watercolor", none, "draft"⟩]
    photos := [⟨1, 1, "uploads/1/a.png", none, 0, "uploaded"⟩,
               ⟨2, 1, "uploads/1/b.png", none, 1, "uploaded"⟩]
    variants := [⟨1, 1, "styled/1/a1.png", "watercolor", true⟩]
    videos := [⟨1, some 1, 1, some "videos/1/s1.mp4", "scene", none, none,
               some 0, "ready", true⟩]
    exports := []
    nextVariantId := 2
    nextVideoId := 2 }

/-- A sequence exercising all five selection operations on `c6DB`. -/
def c6Ops : List SelOp :=
  [.saveResult 1 "styled/1/a2.png" "anime",
   .selVariant 1 1,
   .createVideo 2 1 1,
   .videoGen 2 (some 2) (some "videos/1/s2.mp4"),
   .selVideo 1 1]

theorem selection_invariant_witness :
    SelInv c6DB ∧ opsOK c6DB c6Ops ∧ SelInv (applySelOps c6DB c6Ops) :=
  ⟨by decide, by decide,
    selection_invariant c6Ops c6DB (by decide) (by decide)⟩


end MomentLoop

